import Mathlib

/-!
Verification of the Persona webhook intake processor
(`user/views/persona_webhook_view.py`) and the feed signal handlers
(`feed/signals/purchase_signals.py`).

Python strings are modelled as lists of Unicode code points (`PyStr`),
request bodies as lists of bytes (`List Nat`, each < 256).  Machine
arithmetic of SHA-256 is done on `Nat` with explicit reduction mod 2^32.
-/

set_option maxRecDepth 100000

/-- A Python `str`: a sequence of Unicode code points. -/
abbrev PyStr := List Nat

/-- Embed an ASCII/Unicode Lean string literal as a `PyStr`. -/
def pystr (s : String) : PyStr := s.data.map Char.toNat

/-- ASCII lowercasing, modelling `str.lower()` on the ASCII fragment that the
webhook status strings live in. -/
def pyLower (s : PyStr) : PyStr :=
  s.map (fun c => if 65 ≤ c ∧ c ≤ 90 then c + 32 else c)

/-- Python `str.split(sep)` for a one-character separator. -/
def splitOn (sep : Nat) : PyStr → List PyStr
  | [] => [[]]
  | c :: cs =>
    if c = sep then [] :: splitOn sep cs
    else
      match splitOn sep cs with
      | [] => [[c]]
      | p :: ps => (c :: p) :: ps

/-- UTF-8 encoding of one code point (as `str.encode("utf-8")` does). -/
def utf8EncodeChar (c : Nat) : List Nat :=
  if c < 128 then [c]
  else if c < 2048 then [192 + c / 64, 128 + c % 64]
  else if c < 65536 then [224 + c / 4096, 128 + c / 64 % 64, 128 + c % 64]
  else [240 + c / 262144, 128 + c / 4096 % 64, 128 + c / 64 % 64, 128 + c % 64]

/-- UTF-8 encoding of a Python string. -/
def utf8Encode (s : PyStr) : List Nat := s.flatMap utf8EncodeChar

/-- Is the byte a UTF-8 continuation byte? -/
def utf8Cont (b : Nat) : Bool := 128 ≤ b && b < 192

/-- Decode one code point from the front of a UTF-8 byte string, strictly as
Python `bytes.decode("utf-8")` does: overlong forms, surrogates and
out-of-range code points are rejected. -/
def utf8DecodeOne : List Nat → Option (Nat × List Nat)
  | [] => none
  | b :: bs =>
    if b < 128 then some (b, bs)
    else if b < 194 then none
    else if b < 224 then
      match bs with
      | b2 :: bs' =>
        if utf8Cont b2 then some ((b - 192) * 64 + (b2 - 128), bs')
        else none
      | [] => none
    else if b < 240 then
      match bs with
      | b2 :: b3 :: bs' =>
        if utf8Cont b2 && utf8Cont b3 then
          let c := (b - 224) * 4096 + (b2 - 128) * 64 + (b3 - 128)
          if 2048 ≤ c ∧ ¬ (55296 ≤ c ∧ c < 57344) then some (c, bs')
          else none
        else none
      | _ => none
    else if b < 245 then
      match bs with
      | b2 :: b3 :: b4 :: bs' =>
        if utf8Cont b2 && utf8Cont b3 && utf8Cont b4 then
          let c := (b - 240) * 262144 + (b2 - 128) * 4096 + (b3 - 128) * 64 + (b4 - 128)
          if 65536 ≤ c ∧ c < 1114112 then some (c, bs')
          else none
        else none
      | _ => none
    else none

/-- The decoding loop (`fuel` bounds the recursion; one byte at least is
consumed per step, so `length + 1` fuel always suffices). -/
def utf8DecodeLoop : Nat → List Nat → Option PyStr
  | _, [] => some []
  | 0, _ :: _ => none
  | fuel + 1, b :: bs =>
    match utf8DecodeOne (b :: bs) with
    | none => none
    | some (c, rest) => (c :: ·) <$> utf8DecodeLoop fuel rest

/-- Strict UTF-8 decoding of a whole byte string; `none` models a raised
`UnicodeDecodeError`. -/
def utf8Decode (bs : List Nat) : Option PyStr := utf8DecodeLoop (bs.length + 1) bs

/-- Is the string ASCII-only?  (`hmac.compare_digest` only accepts ASCII
strings.) -/
def isAscii (s : PyStr) : Bool := s.all (fun c => decide (c < 128))

/-- Decode one code point under the `surrogatepass` error handler that
`json.loads` uses: identical to the strict decoder except that three-byte
sequences encoding surrogates (U+D800..U+DFFF) are accepted. -/
def utf8DecodeOneSP : List Nat → Option (Nat × List Nat)
  | [] => none
  | b :: bs =>
    if b < 128 then some (b, bs)
    else if b < 194 then none
    else if b < 224 then
      match bs with
      | b2 :: bs' =>
        if utf8Cont b2 then some ((b - 192) * 64 + (b2 - 128), bs')
        else none
      | [] => none
    else if b < 240 then
      match bs with
      | b2 :: b3 :: bs' =>
        if utf8Cont b2 && utf8Cont b3 then
          let c := (b - 224) * 4096 + (b2 - 128) * 64 + (b3 - 128)
          if 2048 ≤ c then some (c, bs')
          else none
        else none
      | _ => none
    else if b < 245 then
      match bs with
      | b2 :: b3 :: b4 :: bs' =>
        if utf8Cont b2 && utf8Cont b3 && utf8Cont b4 then
          let c := (b - 240) * 262144 + (b2 - 128) * 4096 + (b3 - 128) * 64 + (b4 - 128)
          if 65536 ≤ c ∧ c < 1114112 then some (c, bs')
          else none
        else none
      | _ => none
    else none

/-- The decoding loop of the `surrogatepass` decoder. -/
def utf8DecodeLoopSP : Nat → List Nat → Option PyStr
  | _, [] => some []
  | 0, _ :: _ => none
  | fuel + 1, b :: bs =>
    match utf8DecodeOneSP (b :: bs) with
    | none => none
    | some (c, rest) => (c :: ·) <$> utf8DecodeLoopSP fuel rest

/-- UTF-8 decoding with `surrogatepass`, as `bytes.decode("utf-8",
"surrogatepass")` inside `json.loads`. -/
def utf8DecodeSP (bs : List Nat) : Option PyStr := utf8DecodeLoopSP (bs.length + 1) bs

/-- Big-endian UTF-16 code units from bytes (`swap` for little-endian); an
odd trailing byte is a decoding error. -/
def utf16Units (swap : Bool) : List Nat → Option (List Nat)
  | [] => some []
  | [_] => none
  | b1 :: b2 :: rest =>
    (fun us => (if swap then b2 * 256 + b1 else b1 * 256 + b2) :: us) <$>
      utf16Units swap rest

/-- Combine well-formed UTF-16 surrogate pairs into supplementary code
points; lone surrogates pass through (the `surrogatepass` handler). -/
def combineSurrogates : List Nat → List Nat
  | u1 :: u2 :: rest =>
    if 55296 ≤ u1 ∧ u1 ≤ 56319 ∧ 56320 ≤ u2 ∧ u2 ≤ 57343 then
      (65536 + (u1 - 55296) * 1024 + (u2 - 56320)) :: combineSurrogates rest
    else u1 :: combineSurrogates (u2 :: rest)
  | us => us

/-- UTF-16 decoding with `surrogatepass` (`swap` for little-endian). -/
def utf16Decode (swap : Bool) (bs : List Nat) : Option PyStr :=
  combineSurrogates <$> utf16Units swap bs

/-- UTF-32 decoding with `surrogatepass` (`swap` for little-endian): 4-byte
groups, values up to U+10FFFF, surrogates passed through. -/
def utf32Units (swap : Bool) : List Nat → Option (List Nat)
  | [] => some []
  | b1 :: b2 :: b3 :: b4 :: rest =>
    let v := if swap then ((b4 * 256 + b3) * 256 + b2) * 256 + b1
             else ((b1 * 256 + b2) * 256 + b3) * 256 + b4
    if v < 1114112 then (v :: ·) <$> utf32Units swap rest else none
  | _ => none

/-! ### SHA-256 and HMAC, on `Nat` reduced mod 2^32 (`hashlib`/`hmac`) -/

/-- Addition of 32-bit words. -/
def wadd (a b : Nat) : Nat := (a + b) % 4294967296

/-- Right rotation of a 32-bit word. -/
def rotr (n w : Nat) : Nat := ((w >>> n) ||| (w <<< (32 - n))) % 4294967296

/-- Bitwise complement of a 32-bit word. -/
def wnot (w : Nat) : Nat := w ^^^ 4294967295

/-- The SHA-256 round constants. -/
def sha256K : List Nat :=
  [1116352408, 1899447441, 3049323471, 3921009573, 961987163, 1508970993,
   2453635748, 2870763221, 3624381080, 310598401, 607225278, 1426881987,
   1925078388, 2162078206, 2614888103, 3248222580, 3835390401, 4022224774,
   264347078, 604807628, 770255983, 1249150122, 1555081692, 1996064986,
   2554220882, 2821834349, 2952996808, 3210313671, 3336571891, 3584528711,
   113926993, 338241895, 666307205, 773529912, 1294757372, 1396182291,
   1695183700, 1986661051, 2177026350, 2456956037, 2730485921, 2820302411,
   3259730800, 3345764771, 3516065817, 3600352804, 4094571909, 275423344,
   430227734, 506948616, 659060556, 883997877, 958139571, 1322822218,
   1537002063, 1747873779, 1955562222, 2024104815, 2227730452, 2361852424,
   2428436474, 2756734187, 3204031479, 3329325298]

/-- The SHA-256 working state: eight 32-bit words. -/
structure Hash8 where
  a : Nat
  b : Nat
  c : Nat
  d : Nat
  e : Nat
  f : Nat
  g : Nat
  h : Nat

/-- The SHA-256 initial hash value. -/
def sha256Init : Hash8 :=
  ⟨1779033703, 3144134277, 1013904242, 2773480762,
   1359893119, 2600822924, 528734635, 1541459225⟩

/-- One step of the SHA-256 message schedule, extending the word list by
`w[i] = sigma1 w[i-2] + w[i-7] + sigma0 w[i-15] + w[i-16]`. -/
def scheduleStep (ws : List Nat) : List Nat :=
  let l := ws.length
  let g := fun i => ws.getD i 0
  let s0 := (rotr 7 (g (l - 15))) ^^^ (rotr 18 (g (l - 15))) ^^^ ((g (l - 15)) >>> 3)
  let s1 := (rotr 17 (g (l - 2))) ^^^ (rotr 19 (g (l - 2))) ^^^ ((g (l - 2)) >>> 10)
  ws ++ [wadd (wadd s1 (g (l - 7))) (wadd s0 (g (l - 16)))]

/-- Iterate the message schedule `n` times. -/
def schedule : Nat → List Nat → List Nat
  | 0, ws => ws
  | n + 1, ws => schedule n (scheduleStep ws)

/-- One SHA-256 compression round with round constant `k` and word `w`. -/
def sha256Round (s : Hash8) (kw : Nat × Nat) : Hash8 :=
  let S1 := (rotr 6 s.e) ^^^ (rotr 11 s.e) ^^^ (rotr 25 s.e)
  let ch := (s.e &&& s.f) ^^^ ((wnot s.e) &&& s.g)
  let t1 := wadd (wadd (wadd s.h S1) (wadd ch kw.1)) kw.2
  let S0 := (rotr 2 s.a) ^^^ (rotr 13 s.a) ^^^ (rotr 22 s.a)
  let mj := (s.a &&& s.b) ^^^ (s.a &&& s.c) ^^^ (s.b &&& s.c)
  let t2 := wadd S0 mj
  ⟨wadd t1 t2, s.a, s.b, s.c, wadd s.d t1, s.e, s.f, s.g⟩

/-- Compress one 16-word block into the running hash state. -/
def compressBlock (s : Hash8) (block : List Nat) : Hash8 :=
  let ws := schedule 48 block
  let t := (sha256K.zip ws).foldl sha256Round s
  ⟨wadd s.a t.a, wadd s.b t.b, wadd s.c t.c, wadd s.d t.d,
   wadd s.e t.e, wadd s.f t.f, wadd s.g t.g, wadd s.h t.h⟩

/-- Big-endian bytes of a 32-bit word. -/
def be32 (w : Nat) : List Nat :=
  [(w >>> 24) % 256, (w >>> 16) % 256, (w >>> 8) % 256, w % 256]

/-- Big-endian bytes of a 64-bit word. -/
def be64 (w : Nat) : List Nat :=
  [(w >>> 56) % 256, (w >>> 48) % 256, (w >>> 40) % 256, (w >>> 32) % 256,
   (w >>> 24) % 256, (w >>> 16) % 256, (w >>> 8) % 256, w % 256]

/-- SHA-256 padding: a `0x80` byte, zeros to 56 mod 64, and the bit length. -/
def padMessage (msg : List Nat) : List Nat :=
  msg ++ [128] ++ List.replicate ((119 - msg.length % 64) % 64) 0 ++ be64 (8 * msg.length)

/-- Split a byte list into chunks of 64 (`fuel` bounds the recursion). -/
def chunk64 : Nat → List Nat → List (List Nat)
  | 0, _ => []
  | _, [] => []
  | fuel + 1, bs => bs.take 64 :: chunk64 fuel (bs.drop 64)

/-- Group bytes into big-endian 32-bit words (`fuel` bounds the recursion). -/
def bytesToWords : Nat → List Nat → List Nat
  | fuel + 1, b1 :: b2 :: b3 :: b4 :: rest =>
    (b1 * 16777216 + b2 * 65536 + b3 * 256 + b4) :: bytesToWords fuel rest
  | _, _ => []

/-- Serialize the final hash state, big-endian. -/
def hash8ToBytes (s : Hash8) : List Nat :=
  be32 s.a ++ be32 s.b ++ be32 s.c ++ be32 s.d ++
  be32 s.e ++ be32 s.f ++ be32 s.g ++ be32 s.h

/-- SHA-256 of a byte string, returning the 32 digest bytes. -/
def sha256 (msg : List Nat) : List Nat :=
  let padded := padMessage msg
  let final := (chunk64 padded.length padded).foldl
    (fun s blk => compressBlock s (bytesToWords 16 blk)) sha256Init
  hash8ToBytes final

/-- HMAC-SHA256, as Python `hmac.new(key, msg, "sha256").digest()`: the key is
hashed if longer than the 64-byte block, zero-padded to the block size, and
combined with the `0x36`/`0x5c` pads. -/
def hmacSha256 (key msg : List Nat) : List Nat :=
  let k0 := if 64 < key.length then sha256 key else key
  let kp := k0 ++ List.replicate (64 - k0.length) 0
  sha256 ((kp.map (fun b => b ^^^ 92)) ++ sha256 ((kp.map (fun b => b ^^^ 54)) ++ msg))

/-- Lowercase hex digit for a value below 16. -/
def hexChar (n : Nat) : Nat := if n < 10 then 48 + n else 87 + n

/-- Lowercase hexadecimal rendering of a byte string (`.hexdigest()`). -/
def hexEncode (bs : List Nat) : PyStr :=
  bs.flatMap (fun b => [hexChar (b / 16), hexChar (b % 16)])

/-! ### JSON values and `json.loads` -/

/-- A parsed JSON tree as produced by `json.loads`.  `null` doubles as the
Python `None` (which is also what `json.loads` produces for `null`).
Non-integer numerals keep their raw text in `flt`; none of the webhook
fields are numeric, so their value is never consumed. -/
inductive Json where
  | null : Json
  | bool (b : Bool) : Json
  | num (n : Int) : Json
  | flt (raw : PyStr) : Json
  | str (s : PyStr) : Json
  | arr (xs : List Json) : Json
  | obj (fields : List (PyStr × Json)) : Json

/-- Whitespace skipping of the JSON grammar. -/
def skipWs : PyStr → PyStr
  | [] => []
  | c :: cs => if c = 32 ∨ c = 9 ∨ c = 10 ∨ c = 13 then skipWs cs else c :: cs

/-- Value of a hex digit, if any. -/
def hexVal (c : Nat) : Option Nat :=
  if 48 ≤ c ∧ c ≤ 57 then some (c - 48)
  else if 97 ≤ c ∧ c ≤ 102 then some (c - 87)
  else if 65 ≤ c ∧ c ≤ 70 then some (c - 55)
  else none

/-- Single-character JSON string escapes. -/
def unescape (c : Nat) : Option Nat :=
  if c = 34 ∨ c = 92 ∨ c = 47 then some c
  else if c = 98 then some 8
  else if c = 102 then some 12
  else if c = 110 then some 10
  else if c = 114 then some 13
  else if c = 116 then some 9
  else none

/-- Parse the body of a JSON string after the opening quote, returning the
decoded code points and the rest of the input. -/
def parseStringBody : PyStr → Option (PyStr × PyStr)
  | [] => none
  | c :: cs =>
    if c = 34 then some ([], cs)
    else if c = 92 then
      match cs with
      | 117 :: h1 :: h2 :: h3 :: h4 :: tl => do
        let v1 ← hexVal h1
        let v2 ← hexVal h2
        let v3 ← hexVal h3
        let v4 ← hexVal h4
        let (s, rest) ← parseStringBody tl
        pure ((((v1 * 16 + v2) * 16 + v3) * 16 + v4) :: s, rest)
      | e :: tl => do
        let d ← unescape e
        let (s, rest) ← parseStringBody tl
        pure (d :: s, rest)
      | [] => none
    else if c < 32 then none
    else do
      let (s, rest) ← parseStringBody cs
      pure (c :: s, rest)

/-- Is the code point an ASCII digit? -/
def isDigit (c : Nat) : Bool := 48 ≤ c && c ≤ 57

/-- Longest leading run of digits. -/
def takeDigits : PyStr → PyStr × PyStr
  | [] => ([], [])
  | c :: cs =>
    if isDigit c then
      let (ds, rest) := takeDigits cs
      (c :: ds, rest)
    else ([], c :: cs)

/-- Numeric value of a digit string. -/
def digitsToNat : PyStr → Nat → Nat
  | [], acc => acc
  | c :: cs, acc => digitsToNat cs (acc * 10 + (c - 48))

/-- Parse the fraction/exponent tail of a JSON number; returns the consumed
text, or `none` when absent or ill-formed. -/
def parseNumTail (s : PyStr) : Option (PyStr × PyStr) :=
  match s with
  | 46 :: cs =>
    match takeDigits cs with
    | ([], _) => none
    | (ds, rest) =>
      match rest with
      | 101 :: tl => (fun (e, r) => (46 :: ds ++ 101 :: e, r)) <$> parseExpTail tl
      | 69 :: tl => (fun (e, r) => (46 :: ds ++ 69 :: e, r)) <$> parseExpTail tl
      | _ => some (46 :: ds, rest)
  | 101 :: cs => (fun (e, r) => (101 :: e, r)) <$> parseExpTail cs
  | 69 :: cs => (fun (e, r) => (69 :: e, r)) <$> parseExpTail cs
  | _ => none
where
  /-- Parse an exponent after `e`/`E`: optional sign and digits. -/
  parseExpTail (s : PyStr) : Option (PyStr × PyStr) :=
    match s with
    | 43 :: cs => (fun (ds, r) => ((43 : Nat) :: ds, r)) <$> digits1 cs
    | 45 :: cs => (fun (ds, r) => ((45 : Nat) :: ds, r)) <$> digits1 cs
    | cs => digits1 cs
  /-- At least one digit. -/
  digits1 (s : PyStr) : Option (PyStr × PyStr) :=
    match takeDigits s with
    | ([], _) => none
    | (ds, rest) => some (ds, rest)

/-- Parse a JSON numeral (after an optional leading minus handled by the
caller): integer part with no leading zero, then optional fraction/exponent.
Integers become `Json.num`; anything with a fraction or exponent keeps its
raw text as `Json.flt`. -/
def parseNumAfterSign (neg : Bool) (s : PyStr) : Option (Json × PyStr) :=
  match takeDigits s with
  | ([], _) => none
  | (ds, rest) =>
    if ds.length > 1 ∧ ds.headD 0 = 48 then none
    else
      match parseNumTail rest with
      | some (tail, rest') =>
        some (.flt ((if neg then [(45 : Nat)] else []) ++ ds ++ tail), rest')
      | none =>
        let n : Int := Int.ofNat (digitsToNat ds 0)
        some (.num (if neg then -n else n), rest)

mutual
/-- Parse one JSON value (`fuel` bounds the recursion depth). -/
def parseVal : Nat → PyStr → Option (Json × PyStr)
  | 0, _ => none
  | fuel + 1, s =>
    match skipWs s with
    | 110 :: 117 :: 108 :: 108 :: r => some (.null, r)
    | 116 :: 114 :: 117 :: 101 :: r => some (.bool true, r)
    | 102 :: 97 :: 108 :: 115 :: 101 :: r => some (.bool false, r)
    | 78 :: 97 :: 78 :: r => some (.flt (pystr "NaN"), r)
    | 73 :: 110 :: 102 :: 105 :: 110 :: 105 :: 116 :: 121 :: r =>
      some (.flt (pystr "Infinity"), r)
    | 45 :: 73 :: 110 :: 102 :: 105 :: 110 :: 105 :: 116 :: 121 :: r =>
      some (.flt (pystr "-Infinity"), r)
    | 34 :: r => (fun (cs, rest) => (Json.str cs, rest)) <$> parseStringBody r
    | 91 :: r =>
      match skipWs r with
      | 93 :: r' => some (.arr [], r')
      | r' => parseElems fuel r' []
    | 123 :: r =>
      match skipWs r with
      | 125 :: r' => some (.obj [], r')
      | r' => parseMembers fuel r' []
    | 45 :: r => parseNumAfterSign true r
    | c :: r => if isDigit c then parseNumAfterSign false (c :: r) else none
    | [] => none

/-- Parse the elements of a non-empty JSON array. -/
def parseElems : Nat → PyStr → List Json → Option (Json × PyStr)
  | 0, _, _ => none
  | fuel + 1, s, acc => do
    let (v, rest) ← parseVal fuel s
    match skipWs rest with
    | 44 :: r2 => parseElems fuel r2 (acc ++ [v])
    | 93 :: r2 => some (.arr (acc ++ [v]), r2)
    | _ => none

/-- Parse the members of a non-empty JSON object. -/
def parseMembers : Nat → PyStr → List (PyStr × Json) → Option (Json × PyStr)
  | 0, _, _ => none
  | fuel + 1, s, acc =>
    match skipWs s with
    | 34 :: r => do
      let (k, rest) ← parseStringBody r
      match skipWs rest with
      | 58 :: r2 => do
        let (v, rest') ← parseVal fuel r2
        match skipWs rest' with
        | 44 :: r3 => parseMembers fuel r3 (acc ++ [(k, v)])
        | 125 :: r3 => some (.obj (acc ++ [(k, v)]), r3)
        | _ => none
      | _ => none
    | _ => none
end

/-- `json.detect_encoding` applied and the resulting decode (with the
`surrogatepass` error handler), exactly as `json.loads` does on bytes: the
UTF-32 and UTF-16 byte-order marks are checked first (and stripped), then the
UTF-8 BOM, then the zero-byte heuristics on inputs of length at least 4 or
exactly 2; everything else is UTF-8. -/
def detectAndDecode (bytes : List Nat) : Option PyStr :=
  if bytes.take 4 = [0, 0, 254, 255] then utf32Units false (bytes.drop 4)
  else if bytes.take 4 = [255, 254, 0, 0] then utf32Units true (bytes.drop 4)
  else if bytes.take 2 = [254, 255] then utf16Decode false (bytes.drop 2)
  else if bytes.take 2 = [255, 254] then utf16Decode true (bytes.drop 2)
  else if bytes.take 3 = [239, 187, 191] then utf8DecodeSP (bytes.drop 3)
  else
    match bytes with
    | b0 :: b1 :: b2 :: b3 :: _ =>
      if b0 = 0 then
        if b1 ≠ 0 then utf16Decode false bytes else utf32Units false bytes
      else if b1 = 0 then
        if b2 ≠ 0 ∨ b3 ≠ 0 then utf16Decode true bytes else utf32Units true bytes
      else utf8DecodeSP bytes
    | [b0, b1] =>
      if b0 = 0 then utf16Decode false bytes
      else if b1 = 0 then utf16Decode true bytes
      else utf8DecodeSP bytes
    | _ => utf8DecodeSP bytes

/-- Model of `json.loads` on raw request bytes: detect the encoding and
decode (with `surrogatepass`), parse one JSON value, and require only
trailing whitespace after it.  `none` models a raised
`JSONDecodeError`/`UnicodeDecodeError`. -/
def loads (bytes : List Nat) : Option Json :=
  match detectAndDecode bytes with
  | none => none
  | some s =>
    match parseVal (2 * s.length + 2) s with
    | some (v, rest) => if skipWs rest = [] then some v else none
    | none => none

/-! ### Data model of the webhook view -/

/-- Python exception kinds that can escape the webhook pipeline; they are
all caught by the catch-all in `post` and collapse to a 500 response. -/
inductive PyErr where
  | valueError
  | typeError
  | attributeError
  | indexError
  | unicodeDecodeError
  | integrityError
  | multipleObjectsReturned
  | doesNotExist
  | externalError
deriving DecidableEq

/-- Modelled from the spec: `UserVerification.Status`
(`user.models` is not part of the sources) — "status (enum: PENDING |
APPROVED | DECLINED | FAILED | MARKED_FOR_REVIEW)". -/
inductive Status where
  | PENDING
  | APPROVED
  | DECLINED
  | FAILED
  | MARKED_FOR_REVIEW
deriving DecidableEq

/-- Modelled from the spec: `UserVerification.Type` — "verification method
(enum: fixed set of providers)"; the view only ever uses `PERSONA`. -/
inductive VType where
  | PERSONA
deriving DecidableEq

/-- Modelled from the spec: the persisted `UserVerification` row — "Key:
subject identity (externally supplied reference id). Attributes: first name,
last name, verification method, external correlation id, status."  The key is
the integer user id that Django coerces `reference-id` to; the loosely-typed
payload fields are stored as extracted (`None` for absent ones). -/
structure VerificationRecord where
  userId : Int
  firstName : Json
  lastName : Json
  verifiedBy : VType
  externalId : Json
  status : Status

/-- Modelled from the spec: the notification row created for the subject
about the status change. -/
structure NotificationRec where
  recipient : Int
  extraStatus : Status

/-- The persisted state touched by the view: verification rows and
notification rows. -/
structure Db where
  verifications : List VerificationRecord
  notifications : List NotificationRec

/-- Modelled from the spec: the external collaborators — the user store and
the "fire-and-forget" notification sender and risk-score (fraud detection)
services, whose failures are modelled as flags. -/
structure Env where
  userIds : List Int
  sendNotifRaises : Bool
  trackRaises : Bool
  riskRaises : Bool

/-- An incoming HTTP request: the optional `Persona-Signature` header and the
raw body bytes. -/
structure Request where
  header : Option PyStr
  body : List Nat

/-- An HTTP response: status code and the `message` field of the JSON body. -/
structure Response where
  code : Nat
  message : String
deriving DecidableEq

/-- The 401 response of the view. -/
def unauthorized : Response := ⟨401, "Unauthorized"⟩

/-- The 500 response of the view. -/
def serverError : Response := ⟨500, "Failed to process webhook"⟩

/-- The 200 response of the view. -/
def successResp : Response := ⟨200, "Webhook successfully processed"⟩

/-! ### The view's helpers -/

/-- Python `int(...)` on a string: optional surrounding whitespace, optional
sign, at least one digit. -/
def parseIntPy (s : PyStr) : Option Int :=
  let core := (skipWs s).reverse
  let core := (skipWs core).reverse
  match core with
  | 43 :: ds => Int.ofNat <$> allDigits ds
  | 45 :: ds => (fun n => -(Int.ofNat n)) <$> allDigits ds
  | ds => Int.ofNat <$> allDigits ds
where
  /-- A nonempty all-digit string, as a number. -/
  allDigits (ds : PyStr) : Option Nat :=
    if ds ≠ [] ∧ ds.all isDigit then some (digitsToNat ds 0) else none

/-- Django's coercion of the `user_id=reference_id` keyword to the integer
primary key of `User`: ints and digit strings are accepted (bools are ints
in Python); anything else raises and collapses to the 500 handler. -/
def userKey : Json → Except PyErr Int
  | .num n => .ok n
  | .str s =>
    match parseIntPy s with
    | some n => .ok n
    | none => .error .valueError
  | .bool b => .ok (if b then 1 else 0)
  | _ => .error .typeError

/-- The key-list loop of `_get_nested_attr`: successive `data[key]` lookups,
any `TypeError`/`KeyError` yielding the default `None` (which coincides with
JSON `null`).  Python dicts keep the last value bound to a duplicated key. -/
def getNestedAttrKeys (data : Json) (keys : List PyStr) : Json :=
  match keys with
  | [] => data
  | k :: ks =>
    match data with
    | .obj fields =>
      match (fields.reverse.find? (fun kv => kv.1 = k)) with
      | some kv => getNestedAttrKeys kv.2 ks
      | none => .null
    | _ => .null

/-- `PersonaWebhookView._get_nested_attr` called with a dotted string, which
it splits on `"."` before the lookup loop. -/
def get_nested_attr (data : Json) (keys : String) : Json :=
  getNestedAttrKeys data (splitOn 46 (pystr keys))

/-- Lines 76-87 of the view: lowercase the provider status string and map it
onto `UserVerification.Status` by exact match, defaulting to `PENDING`. -/
def mapPersonaStatus (s : PyStr) : Status :=
  let persona_status := pyLower s
  if persona_status = pystr "approved" then .APPROVED
  else if persona_status = pystr "declined" then .DECLINED
  else if persona_status = pystr "failed" then .FAILED
  else if persona_status = pystr "marked-for-review" then .MARKED_FOR_REVIEW
  else .PENDING

/-- The five fields `_process_payload` extracts from the parsed tree. -/
structure Extracted where
  status : Status
  refId : Json
  firstName : Json
  lastName : Json
  inquiryId : Json

/-- Field extraction of `_process_payload` (lines 74-98): the status lookup
result has `.lower()` called on it, which raises `AttributeError` unless it
is a string; the remaining fields are taken as-is. -/
def extractFields (data : Json) : Except PyErr Extracted :=
  match get_nested_attr data "data.attributes.payload.data.attributes.status" with
  | .str s =>
    .ok { status := mapPersonaStatus s
          refId := get_nested_attr data "data.attributes.payload.data.attributes.reference-id"
          firstName := get_nested_attr data "data.attributes.payload.data.attributes.name-first"
          lastName := get_nested_attr data "data.attributes.payload.data.attributes.name-last"
          inquiryId := get_nested_attr data "data.attributes.payload.data.id" }
  | _ => .error .attributeError

/-- The row written by the upsert: every non-key attribute comes from the
`defaults` dict, so the resulting row is a function of the extraction alone. -/
def mkRec (uid : Int) (ex : Extracted) : VerificationRecord :=
  ⟨uid, ex.firstName, ex.lastName, .PERSONA, ex.inquiryId, ex.status⟩

/-- `UserVerification.objects.update_or_create(user_id=..., defaults=...)`:
coerce the key, then look the row up by key — zero rows insert (subject to
the foreign key on `User`), one row is updated with the defaults, several
raise `MultipleObjectsReturned`. -/
def update_or_create (env : Env) (vs : List VerificationRecord)
    (refId : Json) (ex : Extracted) :
    Except PyErr (List VerificationRecord × VerificationRecord) :=
  match userKey refId with
  | .error e => .error e
  | .ok uid =>
    match vs.filter (fun r => r.userId == uid) with
    | [] =>
      if uid ∈ env.userIds then .ok (vs ++ [mkRec uid ex], mkRec uid ex)
      else .error .integrityError
    | [_] => .ok (vs.map (fun r => if r.userId == uid then mkRec uid ex else r), mkRec uid ex)
    | _ => .error .multipleObjectsReturned

/-- The side effects after the upsert: `_create_notification` (`User` lookup,
notification row, `send_notification`) followed by the Sift science
`track_account` and `update_user_risk_score` calls.  The state reached when
an exception interrupts the sequence is kept, matching the absence of any
transaction around `_process_payload`. -/
def sideEffects (env : Env) (db : Db) (vr : VerificationRecord) : Db × Option PyErr :=
  if vr.userId ∈ env.userIds then
    let db1 : Db := { db with notifications := db.notifications ++ [⟨vr.userId, vr.status⟩] }
    if env.sendNotifRaises then (db1, some .externalError)
    else if env.trackRaises then (db1, some .externalError)
    else if env.riskRaises then (db1, some .externalError)
    else (db1, none)
  else (db, some .doesNotExist)

/-- `PersonaWebhookView._process_payload`: parse the raw body, extract the
fields, upsert the verification row, then dispatch the side effects.  The
returned state is the one reached when the first exception (if any) is
raised. -/
def process_payload (env : Env) (db : Db) (body : List Nat) : Db × Option PyErr :=
  match loads body with
  | none => (db, some .valueError)
  | some data =>
    match extractFields data with
    | .error e => (db, some e)
    | .ok ex =>
      match update_or_create env db.verifications ex.refId ex with
      | .error e => (db, some e)
      | .ok (vs, vr) => sideEffects env { db with verifications := vs } vr

/-- The left-to-right evaluation of the list comprehension
`[value.split("=")[1] for value in parts]`, raising `IndexError` when a
component has no `=`. -/
def headerPartsLoop : List PyStr → Except PyErr (List PyStr)
  | [] => .ok []
  | part :: parts =>
    match (splitOn 61 part).get? 1 with
    | some v => (fun vs => v :: vs) <$> headerPartsLoop parts
    | none => .error .indexError

/-- The header parsing of `_validate_signature`:
`[value.split("=")[1] for value in header.split(",")]`. -/
def parseHeaderParts (header : PyStr) : Except PyErr (List PyStr) :=
  headerPartsLoop (splitOn 44 header)

/-- `hmac.compare_digest` on two strings: both must be ASCII-only, otherwise
it raises `TypeError`; for ASCII strings it returns their equality, compared
in constant time — the timing aspect is not observable here. -/
def compare_digest (a b : PyStr) : Except PyErr Bool :=
  if isAscii a && isAscii b then .ok (a == b) else .error .typeError

/-- `PersonaWebhookView.create_digest`: the lowercase hex digest of
HMAC-SHA256 over the UTF-8 encoding of `t + "." + body`. -/
def create_digest (key t body : PyStr) : PyStr :=
  hexEncode (hmacSha256 (utf8Encode key) (utf8Encode (t ++ (46 : Nat) :: body)))

/-- `PersonaWebhookView._validate_signature`: split the header into the
timestamp and supplied digest (unpacking raises `ValueError` unless there
are exactly two components), decode the raw body as UTF-8, and compare the
recomputed digest with `hmac.compare_digest` (which itself raises
`TypeError` on a non-ASCII supplied digest). -/
def validate_signature (secret : PyStr) (header : PyStr) (body : List Nat) :
    Except PyErr Bool :=
  match parseHeaderParts header with
  | .error e => .error e
  | .ok [t, v1] =>
    match utf8Decode body with
    | none => .error .unicodeDecodeError
    | some bodyStr => compare_digest v1 (create_digest secret t bodyStr)
  | .ok _ => .error .valueError

/-- `PersonaWebhookView.post`: 401 when the header is absent or falsy or the
signature check returns `False`; the catch-all turns any exception from the
signature check or the payload processing into a 500; otherwise 200. -/
def post (secret : PyStr) (env : Env) (db : Db) (req : Request) : Response × Db :=
  match req.header with
  | none => (unauthorized, db)
  | some h =>
    if h.isEmpty then (unauthorized, db)
    else
      match validate_signature secret h req.body with
      | .error _ => (serverError, db)
      | .ok false => (unauthorized, db)
      | .ok true =>
        match process_payload env db req.body with
        | (db', none) => (successResp, db')
        | (db', some _) => (serverError, db')

/-! ### Concrete requests and states used in witnesses -/

/-- A well-formed `Persona-Signature` header for a given secret, timestamp
and body text, carrying the digest the view itself would compute. -/
def mkHeader (secret t body : PyStr) : PyStr :=
  pystr "t=" ++ t ++ pystr ",v1=" ++ create_digest secret t body

/-- Is the JSON value a string? -/
def isStrJson : Json → Bool
  | .str _ => true
  | _ => false

/-- A store knowing user 42, with all collaborators healthy. -/
def env0 : Env := ⟨[42], false, false, false⟩

/-- A store knowing user 42 whose Sift science `track_account` collaborator
raises. -/
def envTrack : Env := ⟨[42], false, true, false⟩

/-- The empty initial state. -/
def db0 : Db := ⟨[], []⟩

/-- The end-to-end scenario payload of the spec (status `approved`,
names Ada Lovelace, reference id 42, inquiry `inq_1`). -/
def c5body : PyStr :=
  pystr "\x7b\"data\":\x7b\"attributes\":\x7b\"payload\":\x7b\"data\":\x7b\"id\":\"inq_1\",\"attributes\":\x7b\"status\":\"approved\",\"name-first\":\"Ada\",\"name-last\":\"Lovelace\",\"reference-id\":\"42\"\x7d\x7d\x7d\x7d\x7d\x7d"

/-- The same payload with status `declined` and inquiry `inq_2`. -/
def declinedBody : PyStr :=
  pystr "\x7b\"data\":\x7b\"attributes\":\x7b\"payload\":\x7b\"data\":\x7b\"id\":\"inq_2\",\"attributes\":\x7b\"status\":\"declined\",\"name-first\":\"Ada\",\"name-last\":\"Lovelace\",\"reference-id\":\"42\"\x7d\x7d\x7d\x7d\x7d\x7d"

/-- A parseable payload that carries no status field at all. -/
def noStatusBody : PyStr := pystr "\x7b\"data\":1\x7d"

/-- A body that is not JSON at all (but is valid UTF-8). -/
def notJsonBody : PyStr := pystr "nope"

/-- The JSON tree `json.loads` produces for `c5body`. -/
def c5tree : Json :=
  .obj [(pystr "data", .obj [(pystr "attributes", .obj [(pystr "payload",
    .obj [(pystr "data", .obj [(pystr "id", .str (pystr "inq_1")),
      (pystr "attributes", .obj [(pystr "status", .str (pystr "approved")),
        (pystr "name-first", .str (pystr "Ada")),
        (pystr "name-last", .str (pystr "Lovelace")),
        (pystr "reference-id", .str (pystr "42"))])])])])])]

/-- The JSON tree `json.loads` produces for `declinedBody`. -/
def declinedTree : Json :=
  .obj [(pystr "data", .obj [(pystr "attributes", .obj [(pystr "payload",
    .obj [(pystr "data", .obj [(pystr "id", .str (pystr "inq_2")),
      (pystr "attributes", .obj [(pystr "status", .str (pystr "declined")),
        (pystr "name-first", .str (pystr "Ada")),
        (pystr "name-last", .str (pystr "Lovelace")),
        (pystr "reference-id", .str (pystr "42"))])])])])])]

/-- The extraction of `c5body`. -/
def exC5 : Extracted :=
  ⟨.APPROVED, .str (pystr "42"), .str (pystr "Ada"), .str (pystr "Lovelace"),
   .str (pystr "inq_1")⟩

/-- The extraction of `declinedBody`. -/
def exDeclined : Extracted :=
  ⟨.DECLINED, .str (pystr "42"), .str (pystr "Ada"), .str (pystr "Lovelace"),
   .str (pystr "inq_2")⟩

/-- The verification row created by the `c5body` delivery. -/
def c5rec : VerificationRecord := mkRec 42 exC5

/-- The verification row after a `declinedBody` delivery. -/
def declinedRec : VerificationRecord := mkRec 42 exDeclined

/-! ### The feed signal handlers (`feed/signals/purchase_signals.py`) -/

/-- The fields of a `Purchase` instance the purchase handler reads. -/
structure PurchaseInst where
  instId : Nat
  contentType : Nat
  objectId : Nat

/-- The fields of a `GrantApplication` instance the grant handlers read:
`instance.grant.unified_document` may be absent. -/
structure GrantApplicationInst where
  instId : Nat
  grantUnifiedDoc : Option Nat

/-- Modelled from the spec: the external collaborators of the handlers —
the `FeedEntry` store (queried by content type and object id, or by unified
document for post entries) and the possibility that any of the ORM accesses
in the handler body raises. -/
structure FeedEnv where
  entriesByObject : Nat → Nat → List Nat
  entriesByPostDoc : Nat → List Nat
  dbRaises : Bool

/-- A feed environment where every ORM access raises. -/
def feedEnvRaise : FeedEnv := ⟨fun _ _ => [1], fun _ => [2], true⟩

/-- A healthy feed environment with no matching feed entries. -/
def feedEnvEmpty : FeedEnv := ⟨fun _ _ => [], fun _ => [], false⟩

/-- A healthy feed environment with some matching feed entries. -/
def feedEnvSome : FeedEnv := ⟨fun _ _ => [5, 7], fun _ => [9], false⟩

/-- The body of `refresh_feed_entries_on_purchase` (inside the `try`): query
the feed entries for the purchased object and schedule a `refresh_feed_entry`
task per entry, or nothing when none match. -/
def refreshOnPurchaseBody (env : FeedEnv) (inst : PurchaseInst) :
    Except PyErr (List Nat) :=
  if env.dbRaises then .error .externalError
  else
    let feed_entries := env.entriesByObject inst.contentType inst.objectId
    if feed_entries.isEmpty then .ok []
    else .ok feed_entries

/-- `refresh_feed_entries_on_purchase`: the whole body is wrapped in a
catch-all `except` that only logs, so the handler always returns normally. -/
def refresh_feed_entries_on_purchase (env : FeedEnv) (inst : PurchaseInst) :
    List Nat :=
  match refreshOnPurchaseBody env inst with
  | .ok tasks => tasks
  | .error _ => []

/-- The body of `refresh_feed_entries_on_grant_application` (inside the
`try`): follow `instance.grant.unified_document`, return early when absent,
otherwise schedule a refresh per matching post feed entry. -/
def refreshOnGrantBody (env : FeedEnv) (inst : GrantApplicationInst) :
    Except PyErr (List Nat) :=
  if env.dbRaises then .error .externalError
  else
    match inst.grantUnifiedDoc with
    | none => .ok []
    | some doc =>
      let feed_entries := env.entriesByPostDoc doc
      if feed_entries.isEmpty then .ok []
      else .ok feed_entries

/-- `refresh_feed_entries_on_grant_application`: body wrapped in a logging
catch-all. -/
def refresh_feed_entries_on_grant_application (env : FeedEnv)
    (inst : GrantApplicationInst) : List Nat :=
  match refreshOnGrantBody env inst with
  | .ok tasks => tasks
  | .error _ => []

/-- `refresh_feed_entries_on_grant_application_delete`: identical body to the
save handler, wrapped in the same logging catch-all. -/
def refresh_feed_entries_on_grant_application_delete (env : FeedEnv)
    (inst : GrantApplicationInst) : List Nat :=
  match refreshOnGrantBody env inst with
  | .ok tasks => tasks
  | .error _ => []

/-! ### Supporting lemmas -/

theorem utf8EncodeChar_cons (c : Nat) (s : PyStr) :
    utf8Encode (c :: s) = utf8EncodeChar c ++ utf8Encode s := by
  simp [utf8Encode]

theorem utf8Encode_append (a b : PyStr) :
    utf8Encode (a ++ b) = utf8Encode a ++ utf8Encode b := by
  simp [utf8Encode]

theorem utf8DecodeOne_correct : ∀ bs c rest, utf8DecodeOne bs = some (c, rest) →
    utf8EncodeChar c ++ rest = bs := by
  intro bs c rest h
  match bs with
  | [] => simp [utf8DecodeOne] at h
  | b :: bs =>
    simp only [utf8DecodeOne] at h
    by_cases h1 : b < 128
    · rw [if_pos h1] at h
      obtain ⟨rfl, rfl⟩ : b = c ∧ bs = rest := by simpa using h
      simp only [utf8EncodeChar, if_pos h1]
      rfl
    · rw [if_neg h1] at h
      by_cases h2 : b < 194
      · rw [if_pos h2] at h; exact absurd h (by simp)
      · rw [if_neg h2] at h
        by_cases h3 : b < 224
        · rw [if_pos h3] at h
          match bs with
          | [] => exact absurd h (by simp)
          | b2 :: bs' =>
            have h' : (if utf8Cont b2 = true then
                some ((b - 192) * 64 + (b2 - 128), bs') else none) = some (c, rest) := h
            by_cases hc2 : utf8Cont b2 = true
            · rw [if_pos hc2] at h'
              obtain ⟨rfl, rfl⟩ : (b - 192) * 64 + (b2 - 128) = c ∧ bs' = rest := by
                simpa using h'
              have hb2 : 128 ≤ b2 ∧ b2 < 192 := by simpa [utf8Cont] using hc2
              have e1 : ¬ ((b - 192) * 64 + (b2 - 128) < 128) := by omega
              have e2 : (b - 192) * 64 + (b2 - 128) < 2048 := by omega
              simp only [utf8EncodeChar, if_neg e1, if_pos e2]
              have d1 : 192 + ((b - 192) * 64 + (b2 - 128)) / 64 = b := by omega
              have d2 : 128 + ((b - 192) * 64 + (b2 - 128)) % 64 = b2 := by omega
              rw [d1, d2]
              rfl
            · rw [if_neg hc2] at h'; exact absurd h' (by simp)
        · rw [if_neg h3] at h
          by_cases h4 : b < 240
          · rw [if_pos h4] at h
            match bs with
            | [] => exact absurd h (by simp)
            | [b2] => exact absurd h (by simp)
            | b2 :: b3 :: bs' =>
              have h' : (if (utf8Cont b2 && utf8Cont b3) = true then
                  if 2048 ≤ (b - 224) * 4096 + (b2 - 128) * 64 + (b3 - 128) ∧
                      ¬ (55296 ≤ (b - 224) * 4096 + (b2 - 128) * 64 + (b3 - 128) ∧
                         (b - 224) * 4096 + (b2 - 128) * 64 + (b3 - 128) < 57344) then
                    some ((b - 224) * 4096 + (b2 - 128) * 64 + (b3 - 128), bs')
                  else none
                else none) = some (c, rest) := h
              by_cases hc2 : (utf8Cont b2 && utf8Cont b3) = true
              · rw [if_pos hc2] at h'
                by_cases hr : 2048 ≤ (b - 224) * 4096 + (b2 - 128) * 64 + (b3 - 128) ∧
                    ¬ (55296 ≤ (b - 224) * 4096 + (b2 - 128) * 64 + (b3 - 128) ∧
                       (b - 224) * 4096 + (b2 - 128) * 64 + (b3 - 128) < 57344)
                · rw [if_pos hr] at h'
                  obtain ⟨rfl, rfl⟩ :
                      (b - 224) * 4096 + (b2 - 128) * 64 + (b3 - 128) = c ∧ bs' = rest := by
                    simpa using h'
                  have hb23 : (128 ≤ b2 ∧ b2 < 192) ∧ (128 ≤ b3 ∧ b3 < 192) := by
                    simpa [utf8Cont] using hc2
                  have e1 : ¬ ((b - 224) * 4096 + (b2 - 128) * 64 + (b3 - 128) < 128) := by omega
                  have e2 : ¬ ((b - 224) * 4096 + (b2 - 128) * 64 + (b3 - 128) < 2048) := by omega
                  have e3 : (b - 224) * 4096 + (b2 - 128) * 64 + (b3 - 128) < 65536 := by omega
                  simp only [utf8EncodeChar, if_neg e1, if_neg e2, if_pos e3]
                  have d1 : 224 + ((b - 224) * 4096 + (b2 - 128) * 64 + (b3 - 128)) / 4096 = b := by
                    omega
                  have d2 : 128 + ((b - 224) * 4096 + (b2 - 128) * 64 + (b3 - 128)) / 64 % 64 = b2 := by
                    omega
                  have d3 : 128 + ((b - 224) * 4096 + (b2 - 128) * 64 + (b3 - 128)) % 64 = b3 := by
                    omega
                  rw [d1, d2, d3]
                  rfl
                · rw [if_neg hr] at h'; exact absurd h' (by simp)
              · rw [if_neg hc2] at h'; exact absurd h' (by simp)
          · rw [if_neg h4] at h
            by_cases h5 : b < 245
            · rw [if_pos h5] at h
              match bs with
              | [] => exact absurd h (by simp)
              | [b2] => exact absurd h (by simp)
              | [b2, b3] => exact absurd h (by simp)
              | b2 :: b3 :: b4 :: bs' =>
                have h' : (if (utf8Cont b2 && utf8Cont b3 && utf8Cont b4) = true then
                    if 65536 ≤ (b - 240) * 262144 + (b2 - 128) * 4096 + (b3 - 128) * 64 + (b4 - 128) ∧
                        (b - 240) * 262144 + (b2 - 128) * 4096 + (b3 - 128) * 64 + (b4 - 128) < 1114112 then
                      some ((b - 240) * 262144 + (b2 - 128) * 4096 + (b3 - 128) * 64 + (b4 - 128), bs')
                    else none
                  else none) = some (c, rest) := h
                by_cases hc2 : (utf8Cont b2 && utf8Cont b3 && utf8Cont b4) = true
                · rw [if_pos hc2] at h'
                  by_cases hr : 65536 ≤ (b - 240) * 262144 + (b2 - 128) * 4096 + (b3 - 128) * 64 + (b4 - 128) ∧
                      (b - 240) * 262144 + (b2 - 128) * 4096 + (b3 - 128) * 64 + (b4 - 128) < 1114112
                  · rw [if_pos hr] at h'
                    obtain ⟨rfl, rfl⟩ :
                        (b - 240) * 262144 + (b2 - 128) * 4096 + (b3 - 128) * 64 + (b4 - 128) = c ∧
                          bs' = rest := by
                      simpa using h'
                    have hb234 : ((128 ≤ b2 ∧ b2 < 192) ∧ (128 ≤ b3 ∧ b3 < 192)) ∧
                        (128 ≤ b4 ∧ b4 < 192) := by
                      simpa [utf8Cont] using hc2
                    have e1 : ¬ ((b - 240) * 262144 + (b2 - 128) * 4096 + (b3 - 128) * 64 + (b4 - 128) < 128) := by
                      omega
                    have e2 : ¬ ((b - 240) * 262144 + (b2 - 128) * 4096 + (b3 - 128) * 64 + (b4 - 128) < 2048) := by
                      omega
                    have e3 : ¬ ((b - 240) * 262144 + (b2 - 128) * 4096 + (b3 - 128) * 64 + (b4 - 128) < 65536) := by
                      omega
                    simp only [utf8EncodeChar, if_neg e1, if_neg e2, if_neg e3]
                    have d1 : 240 + ((b - 240) * 262144 + (b2 - 128) * 4096 + (b3 - 128) * 64 + (b4 - 128)) / 262144 = b := by
                      omega
                    have d2 : 128 + ((b - 240) * 262144 + (b2 - 128) * 4096 + (b3 - 128) * 64 + (b4 - 128)) / 4096 % 64 = b2 := by
                      omega
                    have d3 : 128 + ((b - 240) * 262144 + (b2 - 128) * 4096 + (b3 - 128) * 64 + (b4 - 128)) / 64 % 64 = b3 := by
                      omega
                    have d4 : 128 + ((b - 240) * 262144 + (b2 - 128) * 4096 + (b3 - 128) * 64 + (b4 - 128)) % 64 = b4 := by
                      omega
                    rw [d1, d2, d3, d4]
                    rfl
                  · rw [if_neg hr] at h'; exact absurd h' (by simp)
                · rw [if_neg hc2] at h'; exact absurd h' (by simp)
            · rw [if_neg h5] at h; exact absurd h (by simp)

theorem utf8DecodeLoop_correct : ∀ fuel bs s, utf8DecodeLoop fuel bs = some s →
    utf8Encode s = bs := by
  intro fuel
  induction fuel with
  | zero =>
    intro bs s h
    match bs with
    | [] =>
      obtain rfl : s = [] := by simpa [utf8DecodeLoop] using h.symm
      rfl
    | _ :: _ => exact absurd h (by simp [utf8DecodeLoop])
  | succ fuel ih =>
    intro bs s h
    match bs with
    | [] =>
      obtain rfl : s = [] := by simpa [utf8DecodeLoop] using h.symm
      rfl
    | b :: bs =>
      have h' : (match utf8DecodeOne (b :: bs) with
          | none => none
          | some (c, rest) => (c :: ·) <$> utf8DecodeLoop fuel rest) = some s := h
      match hone : utf8DecodeOne (b :: bs) with
      | none => rw [hone] at h'; exact absurd h' (by simp)
      | some (c, rest) =>
        rw [hone] at h'
        have h2 : ((c :: ·) <$> utf8DecodeLoop fuel rest) = some s := h'
        obtain ⟨s', hs', rfl⟩ : ∃ s', utf8DecodeLoop fuel rest = some s' ∧ s = c :: s' := by
          cases hl : utf8DecodeLoop fuel rest with
          | none => rw [hl] at h2; exact absurd h2 (by simp)
          | some s' =>
            rw [hl] at h2
            exact ⟨s', rfl, by simpa using h2.symm⟩
        rw [utf8EncodeChar_cons, ih rest s' hs', utf8DecodeOne_correct _ _ _ hone]

theorem utf8Encode_of_decode (bs : List Nat) (s : PyStr) (h : utf8Decode bs = some s) :
    utf8Encode s = bs :=
  utf8DecodeLoop_correct _ _ _ h

theorem splitOn_not_mem {c : Nat} {s : PyStr} (hc : c ∉ s) : splitOn c s = [s] := by
  induction s with
  | nil => rfl
  | cons x xs ih =>
    have hx : ¬ (x = c) := fun h => hc (h ▸ List.mem_cons_self x xs)
    have hxs : c ∉ xs := fun h => hc (List.mem_cons_of_mem _ h)
    rw [splitOn, if_neg hx, ih hxs]

theorem splitOn_append {c : Nat} {xs : PyStr} (ys : PyStr) (hc : c ∉ xs) :
    splitOn c (xs ++ c :: ys) = xs :: splitOn c ys := by
  induction xs with
  | nil => simp [splitOn]
  | cons x xs ih =>
    have hx : ¬ (x = c) := fun h => hc (h ▸ List.mem_cons_self x xs)
    have hxs : c ∉ xs := fun h => hc (List.mem_cons_of_mem _ h)
    rw [List.cons_append, splitOn, if_neg hx, ih hxs]

theorem hexChar_ne_sep (n : Nat) : hexChar n ≠ 44 ∧ hexChar n ≠ 61 := by
  unfold hexChar
  split <;> omega

theorem mem_hexEncode_ne_sep {d : Nat} {bs : List Nat} (h : d ∈ hexEncode bs) :
    d ≠ 44 ∧ d ≠ 61 := by
  unfold hexEncode at h
  rw [List.mem_flatMap] at h
  obtain ⟨b, _, hd⟩ := h
  simp only [List.mem_cons, List.not_mem_nil, or_false] at hd
  rcases hd with rfl | rfl
  · exact hexChar_ne_sep _
  · exact hexChar_ne_sep _

theorem comma_not_mem_digest (k t b : PyStr) : (44 : Nat) ∉ create_digest k t b :=
  fun h => (mem_hexEncode_ne_sep h).1 rfl

theorem eq_not_mem_digest (k t b : PyStr) : (61 : Nat) ∉ create_digest k t b :=
  fun h => (mem_hexEncode_ne_sep h).2 rfl

theorem sha256_length (m : List Nat) : (sha256 m).length = 32 := by
  simp [sha256, hash8ToBytes, be32]

theorem hexEncode_length (bs : List Nat) : (hexEncode bs).length = 2 * bs.length := by
  induction bs with
  | nil => rfl
  | cons b bs ih => simp [hexEncode] at ih ⊢; omega

theorem create_digest_length (k t b : PyStr) : (create_digest k t b).length = 64 := by
  simp [create_digest, hexEncode_length, hmacSha256, sha256_length]

theorem mem_be32_lt {b w : Nat} (h : b ∈ be32 w) : b < 256 := by
  simp only [be32, List.mem_cons, List.not_mem_nil, or_false] at h
  rcases h with rfl | rfl | rfl | rfl <;> exact Nat.mod_lt _ (by omega)

theorem mem_hash8ToBytes_lt {b : Nat} {s : Hash8} (h : b ∈ hash8ToBytes s) :
    b < 256 := by
  unfold hash8ToBytes at h
  repeat
    first
    | exact mem_be32_lt h
    | rcases List.mem_append.mp h with h | h

theorem mem_sha256_lt {b : Nat} {m : List Nat} (h : b ∈ sha256 m) : b < 256 := by
  unfold sha256 at h
  exact mem_hash8ToBytes_lt h

theorem hmacSha256_length (k m : List Nat) : (hmacSha256 k m).length = 32 := by
  unfold hmacSha256
  exact sha256_length _

theorem mem_hmacSha256_lt {b : Nat} {k m : List Nat} (h : b ∈ hmacSha256 k m) :
    b < 256 := by
  unfold hmacSha256 at h
  exact mem_sha256_lt h

theorem hexChar_range {n : Nat} (h : n < 16) :
    (48 ≤ hexChar n ∧ hexChar n ≤ 57) ∨ (97 ≤ hexChar n ∧ hexChar n ≤ 102) := by
  unfold hexChar
  split <;> omega

theorem mem_hexEncode_hmac_range {d : Nat} {k m : List Nat}
    (h : d ∈ hexEncode (hmacSha256 k m)) :
    (48 ≤ d ∧ d ≤ 57) ∨ (97 ≤ d ∧ d ≤ 102) := by
  unfold hexEncode at h
  rw [List.mem_flatMap] at h
  obtain ⟨b, hb, hd⟩ := h
  have hlt : b < 256 := mem_hmacSha256_lt hb
  simp only [List.mem_cons, List.not_mem_nil, or_false] at hd
  rcases hd with rfl | rfl
  · exact hexChar_range (by omega)
  · exact hexChar_range (by omega)

theorem hexEncode_hmac_ascii (k m : List Nat) :
    isAscii (hexEncode (hmacSha256 k m)) = true := by
  unfold isAscii
  rw [List.all_eq_true]
  intro c hc
  rcases mem_hexEncode_hmac_range hc with ⟨-, h⟩ | ⟨-, h⟩ <;>
    simp only [decide_eq_true_eq] <;> omega

theorem create_digest_ascii (k t b : PyStr) : isAscii (create_digest k t b) = true := by
  unfold create_digest
  exact hexEncode_hmac_ascii _ _

theorem compare_digest_self {x : PyStr} (hx : isAscii x = true) :
    compare_digest x x = .ok true := by
  simp [compare_digest, hx]

theorem compare_digest_ne {x y : PyStr} (hx : isAscii x = true)
    (hy : isAscii y = true) (h : ¬ (x = y)) : compare_digest x y = .ok false := by
  simp [compare_digest, hx, hy, h]

theorem compare_digest_not_ascii {x : PyStr} (y : PyStr) (hx : isAscii x = false) :
    compare_digest x y = .error .typeError := by
  simp [compare_digest, hx]

theorem parseHeaderParts_mkHeader {t : PyStr} (secret body : PyStr)
    (h44 : (44 : Nat) ∉ t) (h61 : (61 : Nat) ∉ t) :
    parseHeaderParts (mkHeader secret t body) = .ok [t, create_digest secret t body] := by
  have hsplit : splitOn 44 (mkHeader secret t body) =
      [(116 : Nat) :: 61 :: t, (118 : Nat) :: 49 :: 61 :: create_digest secret t body] := by
    have e : mkHeader secret t body =
        ((116 : Nat) :: 61 :: t) ++ (44 : Nat) ::
          ((118 : Nat) :: 49 :: 61 :: create_digest secret t body) := by
      show ((pystr "t=" ++ t) ++ pystr ",v1=") ++ create_digest secret t body = _
      simp only [List.append_assoc]
      rfl
    rw [e, splitOn_append]
    · rw [splitOn_not_mem]
      intro hm
      simp only [List.mem_cons] at hm
      rcases hm with hm | hm | hm | hm
      · exact absurd hm (by decide)
      · exact absurd hm (by decide)
      · exact absurd hm (by decide)
      · exact comma_not_mem_digest secret t body hm
    · intro hm
      simp only [List.mem_cons] at hm
      rcases hm with hm | hm | hm
      · exact absurd hm (by decide)
      · exact absurd hm (by decide)
      · exact h44 hm
  have p1 : splitOn 61 ((116 : Nat) :: 61 :: t) = [[116], t] := by
    have e : (116 : Nat) :: 61 :: t = [(116 : Nat)] ++ (61 : Nat) :: t := rfl
    rw [e, splitOn_append t (by decide), splitOn_not_mem h61]
  have p2 : splitOn 61 ((118 : Nat) :: 49 :: 61 :: create_digest secret t body) =
      [[118, 49], create_digest secret t body] := by
    have e : (118 : Nat) :: 49 :: 61 :: create_digest secret t body =
        [(118 : Nat), 49] ++ (61 : Nat) :: create_digest secret t body := rfl
    rw [e, splitOn_append _ (by decide), splitOn_not_mem (eq_not_mem_digest secret t body)]
  unfold parseHeaderParts
  rw [hsplit]
  unfold headerPartsLoop
  rw [p1]
  unfold headerPartsLoop
  rw [p2]
  rfl

theorem validate_signature_mkHeader {t bodyStr : PyStr} (secret : PyStr)
    {bytes : List Nat}
    (h44 : (44 : Nat) ∉ t) (h61 : (61 : Nat) ∉ t)
    (hdec : utf8Decode bytes = some bodyStr) :
    validate_signature secret (mkHeader secret t bodyStr) bytes = .ok true := by
  unfold validate_signature
  rw [parseHeaderParts_mkHeader secret bodyStr h44 h61]
  show (match utf8Decode bytes with
    | none => Except.error PyErr.unicodeDecodeError
    | some bodyStr2 =>
      compare_digest (create_digest secret t bodyStr)
        (create_digest secret t bodyStr2)) = .ok true
  rw [hdec]
  show compare_digest (create_digest secret t bodyStr)
    (create_digest secret t bodyStr) = .ok true
  rw [compare_digest_self (create_digest_ascii secret t bodyStr)]

theorem mkHeader_not_isEmpty (secret t body : PyStr) :
    (mkHeader secret t body).isEmpty = false := rfl

theorem post_eval (secret : PyStr) (env : Env) (db : Db) (hdr : PyStr)
    (bytes : List Nat) (hne : hdr.isEmpty = false)
    (hv : validate_signature secret hdr bytes = .ok true) :
    post secret env db ⟨some hdr, bytes⟩ =
      (match process_payload env db bytes with
       | (db2, none) => (successResp, db2)
       | (db2, some _) => (serverError, db2)) := by
  show (if hdr.isEmpty = true then (unauthorized, db)
    else match validate_signature secret hdr bytes with
      | .error _ => (serverError, db)
      | .ok false => (unauthorized, db)
      | .ok true =>
        match process_payload env db bytes with
        | (db2, none) => (successResp, db2)
        | (db2, some _) => (serverError, db2)) = _
  rw [hne, hv]
  rfl

theorem post_with_valid_sig {t bodyStr : PyStr} (secret : PyStr) (env : Env) (db : Db)
    {bytes : List Nat}
    (h44 : (44 : Nat) ∉ t) (h61 : (61 : Nat) ∉ t)
    (hdec : utf8Decode bytes = some bodyStr) :
    post secret env db ⟨some (mkHeader secret t bodyStr), bytes⟩ =
      (match process_payload env db bytes with
       | (db2, none) => (successResp, db2)
       | (db2, some _) => (serverError, db2)) :=
  post_eval secret env db _ bytes (mkHeader_not_isEmpty secret t bodyStr)
    (validate_signature_mkHeader secret h44 h61 hdec)

theorem sideEffects_verifications (env : Env) (db : Db) (vr : VerificationRecord) :
    (sideEffects env db vr).1.verifications = db.verifications := by
  unfold sideEffects
  split <;> (try split) <;> (try split) <;> (try split) <;> rfl

theorem map_ite_of_filter_nil {α : Type} (p : α → Bool) (x : α) :
    ∀ {vs : List α}, vs.filter p = [] →
      vs.map (fun r => if p r then x else r) = vs := by
  intro vs
  induction vs with
  | nil => intro _; rfl
  | cons hd tl ih =>
    intro h
    rw [List.filter_cons] at h
    by_cases hp : p hd = true
    · rw [if_pos hp] at h
      exact absurd h (by simp)
    · rw [if_neg hp] at h
      simp only [List.map_cons, if_neg hp, ih h]

theorem filter_map_ite_single {α : Type} (p : α → Bool) (x y : α) (hx : p x = true) :
    ∀ {vs : List α}, vs.filter p = [y] →
      (vs.map (fun r => if p r then x else r)).filter p = [x] := by
  intro vs
  induction vs with
  | nil => intro h; exact absurd h (by simp)
  | cons hd tl ih =>
    intro h
    rw [List.filter_cons] at h
    by_cases hp : p hd = true
    · rw [if_pos hp] at h
      have hhd : hd = y := (List.cons_eq_cons.mp h).1
      have htl : tl.filter p = [] := (List.cons_eq_cons.mp h).2
      rw [List.map_cons, if_pos hp, map_ite_of_filter_nil p x htl, List.filter_cons]
      simp [hx, htl]
    · rw [if_neg hp] at h
      rw [List.map_cons, if_neg hp, List.filter_cons, if_neg hp]
      exact ih h

theorem map_ite_of_filter_single {α : Type} (p : α → Bool) (x : α) :
    ∀ {vs : List α}, vs.filter p = [x] →
      vs.map (fun r => if p r then x else r) = vs := by
  intro vs
  induction vs with
  | nil => intro h; exact absurd h (by simp)
  | cons hd tl ih =>
    intro h
    rw [List.filter_cons] at h
    by_cases hp : p hd = true
    · rw [if_pos hp] at h
      have hhd : hd = x := (List.cons_eq_cons.mp h).1
      have htl : tl.filter p = [] := (List.cons_eq_cons.mp h).2
      subst hhd
      rw [List.map_cons, if_pos hp, map_ite_of_filter_nil p _ htl]
    · rw [if_neg hp] at h
      simp only [List.map_cons, if_neg hp, ih h]

theorem mkRec_userId_beq (uid : Int) (ex : Extracted) :
    ((mkRec uid ex).userId == uid) = true := by
  simp [mkRec]

theorem update_or_create_ok {env : Env} {vs : List VerificationRecord}
    {refId : Json} {ex : Extracted} {vs2 : List VerificationRecord}
    {vr : VerificationRecord}
    (h : update_or_create env vs refId ex = .ok (vs2, vr)) :
    ∃ uid, userKey refId = .ok uid ∧ vr = mkRec uid ex ∧
      vs2.filter (fun r => r.userId == uid) = [mkRec uid ex] := by
  unfold update_or_create at h
  cases hu : userKey refId with
  | error e => rw [hu] at h; exact absurd h (by simp)
  | ok uid =>
    rw [hu] at h
    refine ⟨uid, rfl, ?_⟩
    have h2 : (match vs.filter (fun r => r.userId == uid) with
      | [] =>
        if uid ∈ env.userIds then
          Except.ok (vs ++ [mkRec uid ex], mkRec uid ex)
        else Except.error PyErr.integrityError
      | [_] =>
        Except.ok (vs.map (fun r => if r.userId == uid then mkRec uid ex else r),
          mkRec uid ex)
      | _ => Except.error PyErr.multipleObjectsReturned) = Except.ok (vs2, vr) := h
    cases hf : vs.filter (fun r => r.userId == uid) with
    | nil =>
      rw [hf] at h2
      by_cases hm : uid ∈ env.userIds
      · rw [if_pos hm] at h2
        obtain ⟨hvs, hvr⟩ : vs ++ [mkRec uid ex] = vs2 ∧ mkRec uid ex = vr := by
          simpa using h2
        subst hvs hvr
        refine ⟨rfl, ?_⟩
        rw [List.filter_append, hf]
        simp [mkRec_userId_beq]
      · rw [if_neg hm] at h2
        exact absurd h2 (by simp)
    | cons r rs =>
      cases rs with
      | nil =>
        rw [hf] at h2
        obtain ⟨hvs, hvr⟩ :
            vs.map (fun q => if q.userId == uid then mkRec uid ex else q) = vs2 ∧
              mkRec uid ex = vr := by
          simpa using h2
        subst hvs hvr
        exact ⟨rfl, filter_map_ite_single (fun q => q.userId == uid) (mkRec uid ex) r
          (mkRec_userId_beq uid ex) hf⟩
      | cons r2 rs2 =>
        rw [hf] at h2
        exact absurd h2 (by simp)

theorem update_or_create_existing {vs : List VerificationRecord} {uid : Int}
    {x : VerificationRecord} (env : Env) {refId : Json} (ex : Extracted)
    (hu : userKey refId = .ok uid)
    (hf : vs.filter (fun r => r.userId == uid) = [x]) :
    update_or_create env vs refId ex =
      .ok (vs.map (fun r => if r.userId == uid then mkRec uid ex else r), mkRec uid ex) := by
  unfold update_or_create
  rw [hu]
  show (match vs.filter (fun r => r.userId == uid) with
    | [] =>
      if uid ∈ env.userIds then
        Except.ok (vs ++ [mkRec uid ex], mkRec uid ex)
      else Except.error PyErr.integrityError
    | [_] =>
      Except.ok (vs.map (fun (r : VerificationRecord) =>
          if r.userId == uid then mkRec uid ex else r),
        mkRec uid ex)
    | _ => Except.error PyErr.multipleObjectsReturned) =
    Except.ok (vs.map (fun (r : VerificationRecord) =>
        if r.userId == uid then mkRec uid ex else r),
      mkRec uid ex)
  rw [hf]

theorem process_payload_eval {body : List Nat} {d : Json} {ex : Extracted}
    {vs : List VerificationRecord} {vr : VerificationRecord} (env : Env) (db : Db)
    (hl : loads body = some d) (hex : extractFields d = .ok ex)
    (hup : update_or_create env db.verifications ex.refId ex = .ok (vs, vr)) :
    process_payload env db body = sideEffects env ⟨vs, db.notifications⟩ vr := by
  unfold process_payload
  rw [hl]
  show (match extractFields d with
    | .error e => (db, some e)
    | .ok ex =>
      match update_or_create env db.verifications ex.refId ex with
      | .error e => (db, some e)
      | .ok (vs, vr) => sideEffects env { db with verifications := vs } vr) = _
  rw [hex]
  show (match update_or_create env db.verifications ex.refId ex with
    | .error e => (db, some e)
    | .ok (vs, vr) => sideEffects env { db with verifications := vs } vr) = _
  rw [hup]

theorem process_payload_success_inv {env : Env} {db db2 : Db} {body : List Nat}
    (h : process_payload env db body = (db2, none)) :
    ∃ d ex vs vr, loads body = some d ∧ extractFields d = .ok ex ∧
      update_or_create env db.verifications ex.refId ex = .ok (vs, vr) ∧
      db2.verifications = vs := by
  unfold process_payload at h
  cases hl : loads body with
  | none => rw [hl] at h; exact absurd h (by simp)
  | some d =>
    rw [hl] at h
    have h2 : (match extractFields d with
      | .error e => (db, some e)
      | .ok ex =>
        match update_or_create env db.verifications ex.refId ex with
        | .error e => (db, some e)
        | .ok (vs, vr) => sideEffects env { db with verifications := vs } vr) =
        (db2, none) := h
    cases hex : extractFields d with
    | error e => rw [hex] at h2; exact absurd h2 (by simp)
    | ok ex =>
      rw [hex] at h2
      have h3 : (match update_or_create env db.verifications ex.refId ex with
        | .error e => (db, some e)
        | .ok (vs, vr) => sideEffects env { db with verifications := vs } vr) =
          (db2, none) := h2
      cases hup : update_or_create env db.verifications ex.refId ex with
      | error e => rw [hup] at h3; exact absurd h3 (by simp)
      | ok pair =>
        obtain ⟨vs, vr⟩ := pair
        rw [hup] at h3
        refine ⟨d, ex, vs, vr, rfl, hex, hup, ?_⟩
        have h4 := congrArg (fun p => (Prod.fst p).verifications) h3
        simpa [sideEffects_verifications] using h4.symm

theorem post_success_inv {secret : PyStr} {env : Env} {db db2 : Db} {req : Request}
    (h : post secret env db req = (successResp, db2)) :
    ∃ hdr, req.header = some hdr ∧ hdr.isEmpty = false ∧
      validate_signature secret hdr req.body = .ok true ∧
      process_payload env db req.body = (db2, none) := by
  obtain ⟨hdo, body⟩ := req
  cases hdo with
  | none =>
    have hc := congrArg (fun p => (Prod.fst p).code) h
    simp [post, unauthorized, successResp] at hc
  | some hdr =>
    have h2 : (if hdr.isEmpty = true then (unauthorized, db)
      else match validate_signature secret hdr body with
        | .error _ => (serverError, db)
        | .ok false => (unauthorized, db)
        | .ok true =>
          match process_payload env db body with
          | (db3, none) => (successResp, db3)
          | (db3, some _) => (serverError, db3)) = (successResp, db2) := h
    by_cases he : hdr.isEmpty = true
    · rw [if_pos he] at h2
      have hc := congrArg (fun p => (Prod.fst p).code) h2
      simp [unauthorized, successResp] at hc
    · rw [if_neg he] at h2
      cases hv : validate_signature secret hdr body with
      | error e =>
        rw [hv] at h2
        have hc := congrArg (fun p => (Prod.fst p).code) h2
        simp [serverError, successResp] at hc
      | ok b =>
        rw [hv] at h2
        cases b with
        | false =>
          have hc := congrArg (fun p => (Prod.fst p).code) h2
          simp [unauthorized, successResp] at hc
        | true =>
          have h3 : (match process_payload env db body with
            | (db3, none) => (successResp, db3)
            | (db3, some _) => (serverError, db3)) = (successResp, db2) := h2
          cases hp : process_payload env db body with
          | mk db3 oe =>
            rw [hp] at h3
            cases oe with
            | none =>
              obtain ⟨-, hdb⟩ : successResp = successResp ∧ db3 = db2 := by
                simpa [Prod.ext_iff] using h3
              exact ⟨hdr, rfl, by simpa using he, hv, by rw [hdb]⟩
            | some e =>
              have hc := congrArg (fun p => (Prod.fst p).code) h3
              simp [serverError, successResp] at hc

theorem validate_signature_header_eval {hdr t v1 bodyStr : PyStr} (secret : PyStr)
    {bytes : List Nat}
    (hparts : parseHeaderParts hdr = .ok [t, v1])
    (hdec : utf8Decode bytes = some bodyStr) :
    validate_signature secret hdr bytes =
      compare_digest v1 (create_digest secret t bodyStr) := by
  unfold validate_signature
  rw [hparts]
  show (match utf8Decode bytes with
    | none => Except.error PyErr.unicodeDecodeError
    | some bodyStr2 => compare_digest v1 (create_digest secret t bodyStr2)) = _
  rw [hdec]

theorem validate_signature_decode_none {bytes : List Nat} (secret hdr : PyStr)
    (hdec : utf8Decode bytes = none) :
    ∃ e, validate_signature secret hdr bytes = .error e := by
  cases hp : parseHeaderParts hdr with
  | error e =>
    exact ⟨e, by unfold validate_signature; rw [hp]⟩
  | ok parts =>
    match parts with
    | [t, v1] =>
      refine ⟨.unicodeDecodeError, ?_⟩
      unfold validate_signature
      rw [hp]
      show (match utf8Decode bytes with
        | none => Except.error PyErr.unicodeDecodeError
        | some bodyStr2 => compare_digest v1 (create_digest secret t bodyStr2)) = _
      rw [hdec]
    | [] => exact ⟨.valueError, by unfold validate_signature; rw [hp]⟩
    | [t] => exact ⟨.valueError, by unfold validate_signature; rw [hp]⟩
    | t :: v1 :: x :: rest => exact ⟨.valueError, by unfold validate_signature; rw [hp]⟩

theorem pyLower_idem (s : PyStr) : pyLower (pyLower s) = pyLower s := by
  unfold pyLower
  rw [List.map_map]
  apply List.map_congr_left
  intro c _
  simp only [Function.comp_apply]
  by_cases h : 65 ≤ c ∧ c ≤ 90
  · rw [if_pos h, if_neg (by omega)]
  · rw [if_neg h, if_neg h]

/-! ### Claim theorems -/

/-- C7: for every secret, timestamp string and body string, `create_digest`
equals the lowercase hex encoding of HMAC-SHA256 over
`timestamp ++ "." ++ body`, its output only uses the lowercase hex alphabet,
and it is deterministic: equal inputs give equal digests. -/
theorem create_digest_spec (key t body : PyStr) :
    create_digest key t body =
      hexEncode (hmacSha256 (utf8Encode key)
        (utf8Encode t ++ (46 : Nat) :: utf8Encode body))
    ∧ (∀ d ∈ create_digest key t body,
        (48 ≤ d ∧ d ≤ 57) ∨ (97 ≤ d ∧ d ≤ 102))
    ∧ (∀ key2 t2 body2, key2 = key → t2 = t → body2 = body →
        create_digest key2 t2 body2 = create_digest key t body) := by
  refine ⟨?_, ?_, ?_⟩
  · unfold create_digest
    rw [utf8Encode_append, utf8EncodeChar_cons]
    rfl
  · intro d hd
    unfold create_digest at hd
    exact mem_hexEncode_hmac_range hd
  · rintro key2 t2 body2 rfl rfl rfl
    rfl

/-- Witness for C7 at a concrete secret, timestamp and body. -/
theorem create_digest_spec_witness :
    create_digest (pystr "sec") (pystr "1") (pystr "x") =
      hexEncode (hmacSha256 (utf8Encode (pystr "sec"))
        (utf8Encode (pystr "1") ++ (46 : Nat) :: utf8Encode (pystr "x")))
    ∧ (∀ d ∈ create_digest (pystr "sec") (pystr "1") (pystr "x"),
        (48 ≤ d ∧ d ≤ 57) ∨ (97 ≤ d ∧ d ≤ 102))
    ∧ (∀ key2 t2 body2, key2 = pystr "sec" → t2 = pystr "1" → body2 = pystr "x" →
        create_digest key2 t2 body2 =
          create_digest (pystr "sec") (pystr "1") (pystr "x")) :=
  create_digest_spec (pystr "sec") (pystr "1") (pystr "x")

/-- C9: the provider status string is lowercased before the comparison, so
status values differing only in case map to the same internal enum value;
in particular the uppercase forms of the recognized statuses do not fall to
`PENDING`. -/
theorem status_case_insensitive :
    (∀ s1 s2 : PyStr, pyLower s1 = pyLower s2 →
      mapPersonaStatus s1 = mapPersonaStatus s2)
    ∧ mapPersonaStatus (pystr "APPROVED") = Status.APPROVED
    ∧ mapPersonaStatus (pystr "Declined") = Status.DECLINED
    ∧ mapPersonaStatus (pystr "FaIlEd") = Status.FAILED
    ∧ mapPersonaStatus (pystr "MARKED-FOR-REVIEW") = Status.MARKED_FOR_REVIEW
    ∧ (∀ s : PyStr, mapPersonaStatus (pyLower s) = mapPersonaStatus s) := by
  have hlow : ∀ s1 s2 : PyStr, pyLower s1 = pyLower s2 →
      mapPersonaStatus s1 = mapPersonaStatus s2 := by
    intro s1 s2 h
    unfold mapPersonaStatus
    rw [h]
  refine ⟨hlow, by decide, by decide, by decide, by decide, ?_⟩
  intro s
  exact hlow _ _ (pyLower_idem s)

/-- Witness for C9: a mixed-case status maps as its lowercase form does. -/
theorem status_case_insensitive_witness :
    pyLower (pystr "ApPrOvEd") = pyLower (pystr "approved")
    ∧ mapPersonaStatus (pystr "ApPrOvEd") = mapPersonaStatus (pystr "approved") :=
  ⟨by decide, status_case_insensitive.1 _ _ (by decide)⟩

/-- C3 (amended): a status string maps by exact match on the four recognized
lowercase values with every other string defaulting to `PENDING`; but when
the status field is absent (or not a string), `.lower()` raises
`AttributeError`, so the delivery fails with a 500 instead of being processed
as `PENDING`. -/
theorem status_defaulting_amended :
    (∀ s : PyStr, pyLower s ≠ pystr "approved" → pyLower s ≠ pystr "declined" →
      pyLower s ≠ pystr "failed" → pyLower s ≠ pystr "marked-for-review" →
      mapPersonaStatus s = Status.PENDING)
    ∧ mapPersonaStatus (pystr "approved") = Status.APPROVED
    ∧ mapPersonaStatus (pystr "declined") = Status.DECLINED
    ∧ mapPersonaStatus (pystr "failed") = Status.FAILED
    ∧ mapPersonaStatus (pystr "marked-for-review") = Status.MARKED_FOR_REVIEW
    ∧ mapPersonaStatus (pystr "expired") = Status.PENDING
    ∧ (∀ data : Json,
        isStrJson (get_nested_attr data
          "data.attributes.payload.data.attributes.status") = false →
        extractFields data = .error .attributeError)
    ∧ (∀ env db body data, loads body = some data →
        isStrJson (get_nested_attr data
          "data.attributes.payload.data.attributes.status") = false →
        process_payload env db body = (db, some .attributeError)) := by
  have hext : ∀ data : Json,
      isStrJson (get_nested_attr data
        "data.attributes.payload.data.attributes.status") = false →
      extractFields data = .error .attributeError := by
    intro data h
    unfold extractFields
    cases hs : get_nested_attr data "data.attributes.payload.data.attributes.status" with
    | str s => rw [hs] at h; exact absurd h (by simp [isStrJson])
    | null => rfl
    | bool b => rfl
    | num n => rfl
    | flt raw => rfl
    | arr xs => rfl
    | obj fields => rfl
  refine ⟨?_, by decide, by decide, by decide, by decide, by decide, hext, ?_⟩
  · intro s h1 h2 h3 h4
    unfold mapPersonaStatus
    rw [if_neg h1, if_neg h2, if_neg h3, if_neg h4]
  · intro env db body data hl h
    unfold process_payload
    rw [hl]
    show (match extractFields data with
      | .error e => (db, some e)
      | .ok ex =>
        match update_or_create env db.verifications ex.refId ex with
        | .error e => (db, some e)
        | .ok (vs, vr) => sideEffects env { db with verifications := vs } vr) = _
    rw [hext data h]

/-- Witness for C3's amended theorem at concrete inputs. -/
theorem status_defaulting_amended_witness :
    pyLower (pystr "expired") ≠ pystr "approved"
    ∧ mapPersonaStatus (pystr "expired") = Status.PENDING
    ∧ isStrJson (get_nested_attr (Json.obj [(pystr "data", Json.num 1)])
        "data.attributes.payload.data.attributes.status") = false
    ∧ extractFields (Json.obj [(pystr "data", Json.num 1)]) = .error .attributeError
    ∧ process_payload env0 db0 (utf8Encode noStatusBody) =
        (db0, some .attributeError) := by
  refine ⟨by decide, status_defaulting_amended.2.2.2.2.2.1, by rfl, ?_, ?_⟩
  · exact (status_defaulting_amended.2.2.2.2.2.2.1) _ (by rfl)
  · exact (status_defaulting_amended.2.2.2.2.2.2.2) env0 db0 _ _ (by rfl) (by rfl)

/-- C3 counterexample: an authenticated, parseable payload whose status field
is absent is not processed as `PENDING` — the delivery fails with a 500 and
no verification record is written. -/
theorem absent_status_500_cex :
    loads (utf8Encode noStatusBody) = some (Json.obj [(pystr "data", Json.num 1)])
    ∧ post (pystr "sec") env0 db0
        ⟨some (mkHeader (pystr "sec") (pystr "1") noStatusBody),
         utf8Encode noStatusBody⟩ = (serverError, db0)
    ∧ serverError.code = 500 ∧ successResp.code = 200 := by
  refine ⟨by rfl, ?_, rfl, rfl⟩
  rw [post_with_valid_sig (pystr "sec") env0 db0 (by decide) (by decide) (by rfl)]
  rfl

/-- C2 (amended): a missing or empty header yields 401; a header that
parses into exactly two `k=v` components whose ASCII supplied digest does
not match the recomputed digest yields 401; but a header that does not split
into exactly two components each containing `=` raises inside
`_validate_signature` (IndexError/ValueError), and a two-component header
whose supplied digest contains non-ASCII characters makes
`hmac.compare_digest` raise TypeError — in both cases the catch-all answers
500, not the 401 the claim asserts.  In every case the state is unchanged:
no record or notification is created. -/
theorem auth_failure_behavior :
    (∀ secret env db body, post secret env db ⟨none, body⟩ = (unauthorized, db))
    ∧ (∀ secret env db body, post secret env db ⟨some [], body⟩ = (unauthorized, db))
    ∧ (∀ secret env db hdr body t v1 bodyStr, hdr.isEmpty = false →
        parseHeaderParts hdr = .ok [t, v1] → utf8Decode body = some bodyStr →
        isAscii v1 = true → v1 ≠ create_digest secret t bodyStr →
        post secret env db ⟨some hdr, body⟩ = (unauthorized, db))
    ∧ (∀ secret env db hdr body e, hdr.isEmpty = false →
        validate_signature secret hdr body = .error e →
        post secret env db ⟨some hdr, body⟩ = (serverError, db))
    ∧ (∀ secret env db hdr body t v1 bodyStr, hdr.isEmpty = false →
        parseHeaderParts hdr = .ok [t, v1] → utf8Decode body = some bodyStr →
        isAscii v1 = false →
        post secret env db ⟨some hdr, body⟩ = (serverError, db))
    ∧ unauthorized = ⟨401, "Unauthorized"⟩ := by
  have h401 : ∀ secret env (db : Db) hdr body, hdr.isEmpty = false →
      validate_signature secret hdr body = .ok false →
      post secret env db ⟨some hdr, body⟩ = (unauthorized, db) := by
    intro secret env db hdr body hne hv
    show (if hdr.isEmpty = true then (unauthorized, db)
      else match validate_signature secret hdr body with
        | .error _ => (serverError, db)
        | .ok false => (unauthorized, db)
        | .ok true =>
          match process_payload env db body with
          | (db2, none) => (successResp, db2)
          | (db2, some _) => (serverError, db2)) = (unauthorized, db)
    rw [hne, hv]
    rfl
  have h500 : ∀ secret env (db : Db) hdr body e, hdr.isEmpty = false →
      validate_signature secret hdr body = .error e →
      post secret env db ⟨some hdr, body⟩ = (serverError, db) := by
    intro secret env db hdr body e hne hv
    show (if hdr.isEmpty = true then (unauthorized, db)
      else match validate_signature secret hdr body with
        | .error _ => (serverError, db)
        | .ok false => (unauthorized, db)
        | .ok true =>
          match process_payload env db body with
          | (db2, none) => (successResp, db2)
          | (db2, some _) => (serverError, db2)) = (serverError, db)
    rw [hne, hv]
    rfl
  refine ⟨fun secret env db body => rfl, fun secret env db body => rfl, ?_, h500, ?_, rfl⟩
  · intro secret env db hdr body t v1 bodyStr hne hparts hdec hA hnd
    exact h401 secret env db hdr body hne
      (by rw [validate_signature_header_eval secret hparts hdec,
        compare_digest_ne hA (create_digest_ascii secret t bodyStr) hnd])
  · intro secret env db hdr body t v1 bodyStr hne hparts hdec hA
    exact h500 secret env db hdr body .typeError hne
      (by rw [validate_signature_header_eval secret hparts hdec,
        compare_digest_not_ascii _ hA])

/-- Witness for C2's amended theorem: each authentication outcome at
concrete inputs, including the non-ASCII supplied digest that raises
`TypeError` and is answered 500. -/
theorem auth_failure_behavior_witness :
    post (pystr "sec") env0 db0 ⟨none, utf8Encode (pystr "x")⟩ = (unauthorized, db0)
    ∧ post (pystr "sec") env0 db0 ⟨some [], utf8Encode (pystr "x")⟩ = (unauthorized, db0)
    ∧ (parseHeaderParts (pystr "t=1,v1=00") = .ok [pystr "1", pystr "00"]
      ∧ isAscii (pystr "00") = true
      ∧ pystr "00" ≠ create_digest (pystr "sec") (pystr "1") (pystr "x")
      ∧ post (pystr "sec") env0 db0
          ⟨some (pystr "t=1,v1=00"), utf8Encode (pystr "x")⟩ = (unauthorized, db0))
    ∧ (validate_signature (pystr "sec") (pystr "t=1")
          (utf8Encode (pystr "x")) = .error .valueError
      ∧ post (pystr "sec") env0 db0
          ⟨some (pystr "t=1"), utf8Encode (pystr "x")⟩ = (serverError, db0))
    ∧ (parseHeaderParts (pystr "t=1,v1=é") = .ok [pystr "1", pystr "é"]
      ∧ isAscii (pystr "é") = false
      ∧ post (pystr "sec") env0 db0
          ⟨some (pystr "t=1,v1=é"), utf8Encode (pystr "x")⟩ = (serverError, db0)) := by
  have hnodig : pystr "00" ≠ create_digest (pystr "sec") (pystr "1") (pystr "x") := by
    intro h
    have hl := congrArg List.length h
    rw [create_digest_length] at hl
    simp [pystr] at hl
  have hparts : parseHeaderParts (pystr "t=1,v1=00") = .ok [pystr "1", pystr "00"] := by
    rfl
  have hparts2 : parseHeaderParts (pystr "t=1,v1=é") = .ok [pystr "1", pystr "é"] := by
    rfl
  have hdec : utf8Decode (utf8Encode (pystr "x")) = some (pystr "x") := by rfl
  have hverr : validate_signature (pystr "sec") (pystr "t=1")
      (utf8Encode (pystr "x")) = .error .valueError := by rfl
  refine ⟨auth_failure_behavior.1 _ env0 db0 _,
          auth_failure_behavior.2.1 _ env0 db0 _,
          ⟨hparts, by decide, hnodig,
            auth_failure_behavior.2.2.1 _ env0 db0 _ _ _ _ _ rfl hparts hdec
              (by decide) hnodig⟩,
          ⟨hverr, auth_failure_behavior.2.2.2.1 _ env0 db0 _ _ _ rfl hverr⟩,
          ⟨hparts2, by decide,
            auth_failure_behavior.2.2.2.2.1 _ env0 db0 _ _ _ _ _ rfl hparts2 hdec
              (by decide)⟩⟩

/-- C2 counterexample: a header that is not of the two-component form (here
`t=1`, with no `v1=` part) yields a 500 from the catch-all, not the 401 the
claim requires. -/
theorem malformed_header_500_cex :
    post (pystr "sec") env0 db0 ⟨some (pystr "t=1"), utf8Encode (pystr "x")⟩ =
      (serverError, db0)
    ∧ serverError.code = 500 ∧ unauthorized.code = 401 :=
  ⟨rfl, rfl, rfl⟩

/-- C4 (amended): for every body whose bytes are valid UTF-8, the signature
check reduces to `hmac.compare_digest` of the supplied digest against the
HMAC-SHA256 over the raw body bytes exactly as received (the decode/encode
round trip is the identity), before any JSON parsing; an ASCII supplied
digest that does not match yields 401, and a matching digest over a body
that `json.loads` rejects yields 500, in both cases with no state change.
For a body that is not valid UTF-8, however, `request.body.decode("utf-8")`
raises and the response is 500 regardless of the signature. -/
theorem signature_raw_bytes :
    (∀ secret hdr bytes bodyStr t v1,
      parseHeaderParts hdr = .ok [t, v1] → utf8Decode bytes = some bodyStr →
      validate_signature secret hdr bytes =
        compare_digest v1 (hexEncode (hmacSha256 (utf8Encode secret)
          (utf8Encode t ++ (46 : Nat) :: bytes))))
    ∧ (∀ secret env db hdr bytes bodyStr t v1, hdr.isEmpty = false →
        parseHeaderParts hdr = .ok [t, v1] → utf8Decode bytes = some bodyStr →
        isAscii v1 = true →
        v1 ≠ hexEncode (hmacSha256 (utf8Encode secret)
          (utf8Encode t ++ (46 : Nat) :: bytes)) →
        post secret env db ⟨some hdr, bytes⟩ = (unauthorized, db))
    ∧ (∀ secret env db hdr bytes, hdr.isEmpty = false →
        validate_signature secret hdr bytes = .ok true → loads bytes = none →
        post secret env db ⟨some hdr, bytes⟩ = (serverError, db))
    ∧ (∀ secret env db hdr bytes, hdr.isEmpty = false →
        utf8Decode bytes = none →
        post secret env db ⟨some hdr, bytes⟩ = (serverError, db)) := by
  have hraw : ∀ secret (hdr : PyStr) bytes bodyStr t v1,
      parseHeaderParts hdr = .ok [t, v1] → utf8Decode bytes = some bodyStr →
      validate_signature secret hdr bytes =
        compare_digest v1 (hexEncode (hmacSha256 (utf8Encode secret)
          (utf8Encode t ++ (46 : Nat) :: bytes))) := by
    intro secret hdr bytes bodyStr t v1 hparts hdec
    rw [validate_signature_header_eval secret hparts hdec]
    have hdig := (create_digest_spec secret t bodyStr).1
    rw [hdig, utf8Encode_of_decode bytes bodyStr hdec]
  refine ⟨hraw, ?_, ?_, ?_⟩
  · intro secret env db hdr bytes bodyStr t v1 hne hparts hdec hA hnd
    have hdig := (create_digest_spec secret t bodyStr).1
    have hdigraw : create_digest secret t bodyStr =
        hexEncode (hmacSha256 (utf8Encode secret)
          (utf8Encode t ++ (46 : Nat) :: bytes)) := by
      rw [hdig, utf8Encode_of_decode bytes bodyStr hdec]
    have hA2 : isAscii (create_digest secret t bodyStr) = true :=
      create_digest_ascii secret t bodyStr
    have hv : validate_signature secret hdr bytes = .ok false := by
      rw [validate_signature_header_eval secret hparts hdec,
        compare_digest_ne hA hA2 (by rw [hdigraw]; exact hnd)]
    show (if hdr.isEmpty = true then (unauthorized, db)
      else match validate_signature secret hdr bytes with
        | .error _ => (serverError, db)
        | .ok false => (unauthorized, db)
        | .ok true =>
          match process_payload env db bytes with
          | (db2, none) => (successResp, db2)
          | (db2, some _) => (serverError, db2)) = (unauthorized, db)
    rw [hne, hv]
    rfl
  · intro secret env db hdr bytes hne hv hl
    rw [post_eval secret env db hdr bytes hne hv]
    have hp : process_payload env db bytes = (db, some .valueError) := by
      unfold process_payload
      rw [hl]
    rw [hp]
  · intro secret env db hdr bytes hne hdec
    obtain ⟨e, hv⟩ := validate_signature_decode_none secret hdr hdec
    show (if hdr.isEmpty = true then (unauthorized, db)
      else match validate_signature secret hdr bytes with
        | .error _ => (serverError, db)
        | .ok false => (unauthorized, db)
        | .ok true =>
          match process_payload env db bytes with
          | (db2, none) => (successResp, db2)
          | (db2, some _) => (serverError, db2)) = (serverError, db)
    rw [hne, hv]
    rfl

/-- Witness for C4's amended theorem at concrete inputs. -/
theorem signature_raw_bytes_witness :
    (parseHeaderParts (pystr "t=1,v1=00") = .ok [pystr "1", pystr "00"]
      ∧ utf8Decode (utf8Encode (pystr "x")) = some (pystr "x")
      ∧ validate_signature (pystr "sec") (pystr "t=1,v1=00") (utf8Encode (pystr "x")) =
          compare_digest (pystr "00") (hexEncode (hmacSha256
            (utf8Encode (pystr "sec"))
            (utf8Encode (pystr "1") ++ (46 : Nat) :: utf8Encode (pystr "x")))))
    ∧ (isAscii (pystr "00") = true
      ∧ pystr "00" ≠ hexEncode (hmacSha256 (utf8Encode (pystr "sec"))
          (utf8Encode (pystr "1") ++ (46 : Nat) :: utf8Encode (pystr "x")))
      ∧ post (pystr "sec") env0 db0
          ⟨some (pystr "t=1,v1=00"), utf8Encode (pystr "x")⟩ = (unauthorized, db0))
    ∧ (loads (utf8Encode notJsonBody) = none
      ∧ post (pystr "sec") env0 db0
          ⟨some (mkHeader (pystr "sec") (pystr "1") notJsonBody),
           utf8Encode notJsonBody⟩ = (serverError, db0))
    ∧ (utf8Decode [255] = none
      ∧ post (pystr "sec") env0 db0 ⟨some (pystr "t=1,v1=00"), [255]⟩ =
          (serverError, db0)) := by
  have hparts : parseHeaderParts (pystr "t=1,v1=00") = .ok [pystr "1", pystr "00"] := by
    rfl
  have hdec : utf8Decode (utf8Encode (pystr "x")) = some (pystr "x") := by rfl
  have hnodig : pystr "00" ≠ hexEncode (hmacSha256 (utf8Encode (pystr "sec"))
      (utf8Encode (pystr "1") ++ (46 : Nat) :: utf8Encode (pystr "x"))) := by
    intro h
    have hl := congrArg List.length h
    rw [hexEncode_length, hmacSha256_length] at hl
    simp [pystr] at hl
  have hvtrue : validate_signature (pystr "sec")
      (mkHeader (pystr "sec") (pystr "1") notJsonBody)
      (utf8Encode notJsonBody) = .ok true :=
    validate_signature_mkHeader (pystr "sec") (by decide) (by decide) (by rfl)
  refine ⟨⟨hparts, hdec, signature_raw_bytes.1 _ _ _ _ _ _ hparts hdec⟩,
          ⟨by decide, hnodig,
            signature_raw_bytes.2.1 _ env0 db0 _ _ _ _ _ rfl hparts hdec
              (by decide) hnodig⟩,
          ⟨rfl, signature_raw_bytes.2.2.1 _ env0 db0 _ _ rfl hvtrue (by rfl)⟩,
          ⟨rfl, signature_raw_bytes.2.2.2 _ env0 db0 _ _ rfl rfl⟩⟩

/-- C4 counterexample: a body of invalid UTF-8 bytes whose supplied digest
does not match the HMAC over the raw bytes is answered with 500, not the 401
the claim requires for every non-matching body. -/
theorem non_utf8_body_cex :
    utf8Decode [255] = none
    ∧ pystr "00" ≠ hexEncode (hmacSha256 (utf8Encode (pystr "sec"))
        (utf8Encode (pystr "1") ++ (46 : Nat) :: [255]))
    ∧ post (pystr "sec") env0 db0 ⟨some (pystr "t=1,v1=00"), [255]⟩ =
        (serverError, db0)
    ∧ serverError.code ≠ unauthorized.code := by
  refine ⟨rfl, ?_, rfl, by decide⟩
  intro h
  have hl := congrArg List.length h
  rw [hexEncode_length, hmacSha256_length] at hl
  simp [pystr] at hl

/-- C5: the spec's end-to-end scenario — the concrete approved payload for
subject 42, delivered with a correct signature over any secret and any
well-formed timestamp, writes the expected verification row and returns
200 with the success message. -/
theorem end_to_end_success (secret t : PyStr)
    (h44 : (44 : Nat) ∉ t) (h61 : (61 : Nat) ∉ t) :
    post secret env0 db0 ⟨some (mkHeader secret t c5body), utf8Encode c5body⟩ =
      (successResp, ⟨[c5rec], [⟨42, .APPROVED⟩]⟩)
    ∧ c5rec.status = Status.APPROVED
    ∧ c5rec.externalId = Json.str (pystr "inq_1")
    ∧ c5rec.firstName = Json.str (pystr "Ada")
    ∧ c5rec.lastName = Json.str (pystr "Lovelace")
    ∧ c5rec.userId = 42
    ∧ successResp = ⟨200, "Webhook successfully processed"⟩ := by
  refine ⟨?_, rfl, rfl, rfl, rfl, rfl, rfl⟩
  rw [post_with_valid_sig secret env0 db0 h44 h61 (by rfl)]
  rfl

/-- Witness for C5 at a concrete secret and timestamp. -/
theorem end_to_end_success_witness :
    (44 : Nat) ∉ pystr "1" ∧ (61 : Nat) ∉ pystr "1"
    ∧ post (pystr "sec") env0 db0
        ⟨some (mkHeader (pystr "sec") (pystr "1") c5body), utf8Encode c5body⟩ =
      (successResp, ⟨[c5rec], [⟨42, .APPROVED⟩]⟩) :=
  ⟨by decide, by decide,
   (end_to_end_success (pystr "sec") (pystr "1") (by decide) (by decide)).1⟩

/-- C1: delivering the same well-formed, validly signed payload twice leaves
exactly one verification record for the extracted subject key, whose fields
are exactly those of the (last) delivery, and the second delivery does not
change the set of verification rows at all. -/
theorem webhook_upsert_idempotent
    (secret : PyStr) (env : Env) (db db1 db2 : Db) (req : Request)
    (d : Json) (ex : Extracted) (uid : Int)
    (h1 : post secret env db req = (successResp, db1))
    (h2 : post secret env db1 req = (successResp, db2))
    (hld : loads req.body = some d)
    (hex : extractFields d = .ok ex)
    (hu : userKey ex.refId = .ok uid) :
    db2.verifications.filter (fun r => r.userId == uid) = [mkRec uid ex]
    ∧ db2.verifications = db1.verifications := by
  obtain ⟨hdr1, -, -, -, hp1⟩ := post_success_inv h1
  obtain ⟨hdr2, -, -, -, hp2⟩ := post_success_inv h2
  obtain ⟨d1, ex1, vs1, vr1, hl1, hex1, hup1, hveq1⟩ := process_payload_success_inv hp1
  obtain ⟨d2, ex2, vs2, vr2, hl2, hex2, hup2, hveq2⟩ := process_payload_success_inv hp2
  rw [hld] at hl1 hl2
  obtain rfl : d = d1 := Option.some.inj hl1
  obtain rfl : d = d2 := Option.some.inj hl2
  rw [hex] at hex1 hex2
  obtain rfl : ex = ex1 := Except.ok.inj hex1
  obtain rfl : ex = ex2 := Except.ok.inj hex2
  obtain ⟨uid1, hu1, hvr1, hf1⟩ := update_or_create_ok hup1
  rw [hu] at hu1
  obtain rfl : uid = uid1 := Except.ok.inj hu1
  have hf1' : db1.verifications.filter (fun r => r.userId == uid) = [mkRec uid ex] := by
    rw [hveq1]
    exact hf1
  have hup2' := update_or_create_existing env ex hu hf1'
  rw [hup2'] at hup2
  obtain ⟨hvs2, -⟩ :
      (db1.verifications.map fun r => if r.userId == uid then mkRec uid ex else r) = vs2
      ∧ mkRec uid ex = vr2 := by
    simpa using hup2
  have hmap :
      (db1.verifications.map fun r => if r.userId == uid then mkRec uid ex else r) =
        db1.verifications :=
    map_ite_of_filter_single _ _ hf1'
  constructor
  · rw [hveq2, ← hvs2, hmap]
    exact hf1'
  · rw [hveq2, ← hvs2, hmap]

/-- C6: after a successful delivery whose payload maps to `APPROVED` for a
subject, a later successful delivery mapping to `DECLINED` for the same
subject leaves the record's status at `DECLINED`: the upsert overwrites
whatever was stored, with no ordering or terminal-state check. -/
theorem last_write_wins
    (secret : PyStr) (env : Env) (db db1 db2 : Db) (req1 req2 : Request)
    (d1 : Json) (ex1 : Extracted) (d2 : Json) (ex2 : Extracted) (uid : Int)
    (h1 : post secret env db req1 = (successResp, db1))
    (h2 : post secret env db1 req2 = (successResp, db2))
    (hl1 : loads req1.body = some d1) (hex1 : extractFields d1 = .ok ex1)
    (hu1 : userKey ex1.refId = .ok uid) (hst1 : ex1.status = Status.APPROVED)
    (hl2 : loads req2.body = some d2) (hex2 : extractFields d2 = .ok ex2)
    (hu2 : userKey ex2.refId = .ok uid) (hst2 : ex2.status = Status.DECLINED) :
    db2.verifications.filter (fun r => r.userId == uid) = [mkRec uid ex2]
    ∧ (mkRec uid ex2).status = Status.DECLINED := by
  obtain ⟨hdr2, -, -, -, hp2⟩ := post_success_inv h2
  obtain ⟨d2', ex2', vs2, vr2, hl2', hex2', hup2, hveq2⟩ := process_payload_success_inv hp2
  rw [hl2] at hl2'
  obtain rfl : d2 = d2' := Option.some.inj hl2'
  rw [hex2] at hex2'
  obtain rfl : ex2 = ex2' := Except.ok.inj hex2'
  obtain ⟨uid2, hu2', hvr2, hf2⟩ := update_or_create_ok hup2
  rw [hu2] at hu2'
  obtain rfl : uid = uid2 := Except.ok.inj hu2'
  refine ⟨?_, ?_⟩
  · rw [hveq2]
    exact hf2
  · show ex2.status = Status.DECLINED
    exact hst2

/-- C8: when the upsert has succeeded but a later side effect (notification
sending, account tracking or risk scoring) raises, the response is the
generic 500 even though the verification rows already hold the upserted
state, which is not rolled back. -/
theorem side_effect_failure_after_upsert
    (secret : PyStr) (env : Env) (db : Db) (req : Request) (hdr : PyStr)
    (d : Json) (ex : Extracted) (uid : Int) (vs : List VerificationRecord)
    (vr : VerificationRecord)
    (hh : req.header = some hdr) (hne : hdr.isEmpty = false)
    (hv : validate_signature secret hdr req.body = .ok true)
    (hl : loads req.body = some d) (hex : extractFields d = .ok ex)
    (hu : userKey ex.refId = .ok uid)
    (hup : update_or_create env db.verifications ex.refId ex = .ok (vs, vr))
    (hfail : (sideEffects env ⟨vs, db.notifications⟩ vr).2 ≠ none) :
    post secret env db req = (serverError, (sideEffects env ⟨vs, db.notifications⟩ vr).1)
    ∧ (sideEffects env ⟨vs, db.notifications⟩ vr).1.verifications = vs
    ∧ vs.filter (fun r => r.userId == uid) = [mkRec uid ex] := by
  obtain ⟨hdo, body⟩ := req
  obtain rfl : hdo = some hdr := hh
  refine ⟨?_, sideEffects_verifications env ⟨vs, db.notifications⟩ vr, ?_⟩
  · rw [post_eval secret env db hdr body hne hv,
      process_payload_eval env db hl hex hup]
    cases hse : sideEffects env ⟨vs, db.notifications⟩ vr with
    | mk dbx oe =>
      cases oe with
      | none => rw [hse] at hfail; simp at hfail
      | some e => rfl
  · obtain ⟨uid2, hu2, hvr, hf⟩ := update_or_create_ok hup
    rw [hu] at hu2
    obtain rfl : uid = uid2 := Except.ok.inj hu2
    exact hf

/-- C10: the three feed signal handlers wrap their bodies in logging
catch-alls, so they return normally for every environment and instance:
a raising ORM access enqueues nothing instead of propagating, no matching
feed entries enqueues nothing, an absent unified document enqueues nothing,
and otherwise exactly the matching entries are scheduled. -/
theorem feed_handlers_never_propagate :
    (∀ env inst, env.dbRaises = true →
      refresh_feed_entries_on_purchase env inst = [])
    ∧ (∀ env inst, env.entriesByObject inst.contentType inst.objectId = [] →
        refresh_feed_entries_on_purchase env inst = [])
    ∧ (∀ env inst, refresh_feed_entries_on_purchase env inst = [] ∨
        refresh_feed_entries_on_purchase env inst =
          env.entriesByObject inst.contentType inst.objectId)
    ∧ (∀ env inst, env.dbRaises = true →
        refresh_feed_entries_on_grant_application env inst = [])
    ∧ (∀ env inst, inst.grantUnifiedDoc = none →
        refresh_feed_entries_on_grant_application env inst = [])
    ∧ (∀ env inst doc, inst.grantUnifiedDoc = some doc →
        env.entriesByPostDoc doc = [] →
        refresh_feed_entries_on_grant_application env inst = [])
    ∧ (∀ env inst, env.dbRaises = true →
        refresh_feed_entries_on_grant_application_delete env inst = [])
    ∧ (∀ env inst, inst.grantUnifiedDoc = none →
        refresh_feed_entries_on_grant_application_delete env inst = [])
    ∧ (∀ env inst doc, inst.grantUnifiedDoc = some doc →
        env.entriesByPostDoc doc = [] →
        refresh_feed_entries_on_grant_application_delete env inst = []) := by
  have hpur : ∀ (env : FeedEnv) (inst : PurchaseInst),
      refresh_feed_entries_on_purchase env inst = [] ∨
        refresh_feed_entries_on_purchase env inst =
          env.entriesByObject inst.contentType inst.objectId := by
    intro env inst
    by_cases hd : env.dbRaises = true
    · left
      simp [refresh_feed_entries_on_purchase, refreshOnPurchaseBody, hd]
    · by_cases he : (env.entriesByObject inst.contentType inst.objectId).isEmpty = true
      · left
        simp [refresh_feed_entries_on_purchase, refreshOnPurchaseBody, hd, he]
      · right
        simp [refresh_feed_entries_on_purchase, refreshOnPurchaseBody, hd, he]
  refine ⟨?_, ?_, hpur, ?_, ?_, ?_, ?_, ?_, ?_⟩
  · intro env inst h
    simp [refresh_feed_entries_on_purchase, refreshOnPurchaseBody, h]
  · intro env inst h
    by_cases hd : env.dbRaises = true
    · simp [refresh_feed_entries_on_purchase, refreshOnPurchaseBody, hd]
    · simp [refresh_feed_entries_on_purchase, refreshOnPurchaseBody, hd, h]
  · intro env inst h
    simp [refresh_feed_entries_on_grant_application, refreshOnGrantBody, h]
  · intro env inst h
    by_cases hd : env.dbRaises = true
    · simp [refresh_feed_entries_on_grant_application, refreshOnGrantBody, hd]
    · simp [refresh_feed_entries_on_grant_application, refreshOnGrantBody, hd, h]
  · intro env inst doc h hemp
    by_cases hd : env.dbRaises = true
    · simp [refresh_feed_entries_on_grant_application, refreshOnGrantBody, hd]
    · simp [refresh_feed_entries_on_grant_application, refreshOnGrantBody, hd, h, hemp]
  · intro env inst h
    simp [refresh_feed_entries_on_grant_application_delete, refreshOnGrantBody, h]
  · intro env inst h
    by_cases hd : env.dbRaises = true
    · simp [refresh_feed_entries_on_grant_application_delete, refreshOnGrantBody, hd]
    · simp [refresh_feed_entries_on_grant_application_delete, refreshOnGrantBody, hd, h]
  · intro env inst doc h hemp
    by_cases hd : env.dbRaises = true
    · simp [refresh_feed_entries_on_grant_application_delete, refreshOnGrantBody, hd]
    · simp [refresh_feed_entries_on_grant_application_delete, refreshOnGrantBody, hd, h,
        hemp]

/-- Witness for C1: the approved payload delivered twice at a concrete
secret; the second delivery changes no verification row. -/
theorem webhook_upsert_idempotent_witness :
    post (pystr "sec") env0 db0
        ⟨some (mkHeader (pystr "sec") (pystr "1") c5body), utf8Encode c5body⟩ =
      (successResp, ⟨[c5rec], [⟨42, Status.APPROVED⟩]⟩)
    ∧ post (pystr "sec") env0 ⟨[c5rec], [⟨42, Status.APPROVED⟩]⟩
        ⟨some (mkHeader (pystr "sec") (pystr "1") c5body), utf8Encode c5body⟩ =
      (successResp, ⟨[c5rec], [⟨42, Status.APPROVED⟩, ⟨42, Status.APPROVED⟩]⟩)
    ∧ loads (utf8Encode c5body) = some c5tree
    ∧ extractFields c5tree = .ok exC5
    ∧ userKey exC5.refId = .ok 42
    ∧ ([c5rec].filter (fun r => r.userId == (42 : Int)) = [mkRec 42 exC5]
      ∧ ([c5rec] : List VerificationRecord) = [c5rec]) := by
  have hp1 : post (pystr "sec") env0 db0
      ⟨some (mkHeader (pystr "sec") (pystr "1") c5body), utf8Encode c5body⟩ =
      (successResp, ⟨[c5rec], [⟨42, Status.APPROVED⟩]⟩) := by
    rw [post_with_valid_sig (pystr "sec") env0 db0 (by decide) (by decide) (by rfl)]
    rfl
  have hp2 : post (pystr "sec") env0 ⟨[c5rec], [⟨42, Status.APPROVED⟩]⟩
      ⟨some (mkHeader (pystr "sec") (pystr "1") c5body), utf8Encode c5body⟩ =
      (successResp, ⟨[c5rec], [⟨42, Status.APPROVED⟩, ⟨42, Status.APPROVED⟩]⟩) := by
    rw [post_with_valid_sig (pystr "sec") env0 ⟨[c5rec], [⟨42, Status.APPROVED⟩]⟩
      (by decide) (by decide) (by rfl)]
    rfl
  refine ⟨hp1, hp2, rfl, rfl, rfl, ?_⟩
  exact webhook_upsert_idempotent (pystr "sec") env0 db0
    ⟨[c5rec], [⟨42, Status.APPROVED⟩]⟩
    ⟨[c5rec], [⟨42, Status.APPROVED⟩, ⟨42, Status.APPROVED⟩]⟩
    ⟨some (mkHeader (pystr "sec") (pystr "1") c5body), utf8Encode c5body⟩
    c5tree exC5 42 hp1 hp2 rfl rfl rfl

/-- Witness for C6: approved then declined for subject 42 ends at
`DECLINED`. -/
theorem last_write_wins_witness :
    post (pystr "sec") env0 db0
        ⟨some (mkHeader (pystr "sec") (pystr "1") c5body), utf8Encode c5body⟩ =
      (successResp, ⟨[c5rec], [⟨42, Status.APPROVED⟩]⟩)
    ∧ post (pystr "sec") env0 ⟨[c5rec], [⟨42, Status.APPROVED⟩]⟩
        ⟨some (mkHeader (pystr "sec") (pystr "1") declinedBody),
         utf8Encode declinedBody⟩ =
      (successResp, ⟨[declinedRec], [⟨42, Status.APPROVED⟩, ⟨42, Status.DECLINED⟩]⟩)
    ∧ exC5.status = Status.APPROVED
    ∧ exDeclined.status = Status.DECLINED
    ∧ ([declinedRec].filter (fun r => r.userId == (42 : Int)) = [mkRec 42 exDeclined]
      ∧ (mkRec 42 exDeclined).status = Status.DECLINED) := by
  have hp1 : post (pystr "sec") env0 db0
      ⟨some (mkHeader (pystr "sec") (pystr "1") c5body), utf8Encode c5body⟩ =
      (successResp, ⟨[c5rec], [⟨42, Status.APPROVED⟩]⟩) := by
    rw [post_with_valid_sig (pystr "sec") env0 db0 (by decide) (by decide) (by rfl)]
    rfl
  have hp2 : post (pystr "sec") env0 ⟨[c5rec], [⟨42, Status.APPROVED⟩]⟩
      ⟨some (mkHeader (pystr "sec") (pystr "1") declinedBody),
       utf8Encode declinedBody⟩ =
      (successResp, ⟨[declinedRec], [⟨42, Status.APPROVED⟩, ⟨42, Status.DECLINED⟩]⟩) := by
    rw [post_with_valid_sig (pystr "sec") env0 ⟨[c5rec], [⟨42, Status.APPROVED⟩]⟩
      (by decide) (by decide) (by rfl)]
    rfl
  refine ⟨hp1, hp2, rfl, rfl, ?_⟩
  exact last_write_wins (pystr "sec") env0 db0
    ⟨[c5rec], [⟨42, Status.APPROVED⟩]⟩
    ⟨[declinedRec], [⟨42, Status.APPROVED⟩, ⟨42, Status.DECLINED⟩]⟩
    ⟨some (mkHeader (pystr "sec") (pystr "1") c5body), utf8Encode c5body⟩
    ⟨some (mkHeader (pystr "sec") (pystr "1") declinedBody), utf8Encode declinedBody⟩
    c5tree exC5 declinedTree exDeclined 42
    hp1 hp2 rfl rfl rfl rfl rfl rfl rfl rfl

/-- Witness for C8: with the risk-scoring collaborator raising, the approved
delivery is answered 500 while the verification row is already written. -/
theorem side_effect_failure_after_upsert_witness :
    validate_signature (pystr "sec") (mkHeader (pystr "sec") (pystr "1") c5body)
      (utf8Encode c5body) = .ok true
    ∧ update_or_create envTrack db0.verifications exC5.refId exC5 =
        .ok ([c5rec], c5rec)
    ∧ (sideEffects envTrack ⟨[c5rec], []⟩ c5rec).2 ≠ none
    ∧ (post (pystr "sec") envTrack db0
        ⟨some (mkHeader (pystr "sec") (pystr "1") c5body), utf8Encode c5body⟩ =
        (serverError, (sideEffects envTrack ⟨[c5rec], []⟩ c5rec).1)
      ∧ (sideEffects envTrack ⟨[c5rec], []⟩ c5rec).1.verifications = [c5rec]
      ∧ [c5rec].filter (fun r => r.userId == (42 : Int)) = [mkRec 42 exC5]) := by
  have hv : validate_signature (pystr "sec")
      (mkHeader (pystr "sec") (pystr "1") c5body) (utf8Encode c5body) = .ok true :=
    validate_signature_mkHeader (pystr "sec") (by decide) (by decide) (by rfl)
  refine ⟨hv, rfl, by decide, ?_⟩
  exact side_effect_failure_after_upsert (pystr "sec") envTrack db0
    ⟨some (mkHeader (pystr "sec") (pystr "1") c5body), utf8Encode c5body⟩
    (mkHeader (pystr "sec") (pystr "1") c5body)
    c5tree exC5 42 [c5rec] c5rec
    rfl rfl hv rfl rfl rfl rfl (by decide)

/-- Witness for C10 at concrete environments and instances. -/
theorem feed_handlers_never_propagate_witness :
    refresh_feed_entries_on_purchase feedEnvRaise ⟨1, 2, 3⟩ = []
    ∧ refresh_feed_entries_on_purchase feedEnvEmpty ⟨1, 2, 3⟩ = []
    ∧ (refresh_feed_entries_on_purchase feedEnvSome ⟨1, 2, 3⟩ = [] ∨
        refresh_feed_entries_on_purchase feedEnvSome ⟨1, 2, 3⟩ =
          feedEnvSome.entriesByObject 2 3)
    ∧ refresh_feed_entries_on_grant_application feedEnvRaise ⟨1, some 4⟩ = []
    ∧ refresh_feed_entries_on_grant_application feedEnvSome ⟨1, none⟩ = []
    ∧ refresh_feed_entries_on_grant_application feedEnvEmpty ⟨1, some 4⟩ = []
    ∧ refresh_feed_entries_on_grant_application_delete feedEnvRaise ⟨1, some 4⟩ = []
    ∧ refresh_feed_entries_on_grant_application_delete feedEnvSome ⟨1, none⟩ = []
    ∧ refresh_feed_entries_on_grant_application_delete feedEnvEmpty ⟨1, some 4⟩ = [] :=
  ⟨feed_handlers_never_propagate.1 feedEnvRaise ⟨1, 2, 3⟩ rfl,
   feed_handlers_never_propagate.2.1 feedEnvEmpty ⟨1, 2, 3⟩ rfl,
   feed_handlers_never_propagate.2.2.1 feedEnvSome ⟨1, 2, 3⟩,
   feed_handlers_never_propagate.2.2.2.1 feedEnvRaise ⟨1, some 4⟩ rfl,
   feed_handlers_never_propagate.2.2.2.2.1 feedEnvSome ⟨1, none⟩ rfl,
   feed_handlers_never_propagate.2.2.2.2.2.1 feedEnvEmpty ⟨1, some 4⟩ 4 rfl rfl,
   feed_handlers_never_propagate.2.2.2.2.2.2.1 feedEnvRaise ⟨1, some 4⟩ rfl,
   feed_handlers_never_propagate.2.2.2.2.2.2.2.1 feedEnvSome ⟨1, none⟩ rfl,
   feed_handlers_never_propagate.2.2.2.2.2.2.2.2 feedEnvEmpty ⟨1, some 4⟩ 4 rfl rfl⟩
